import Mathlib

/-!
Verification of the gsync synchronization engine (destination-path derivation,
change detection, traversal ordering, exclusion filtering, deferred directory
mtime restoration) against a shallow embedding of the Go source in `sync.go`
and the local VFS backend in `vfs/local/local.go`.

Go strings are embedded as `List Char` (paths are byte strings; all paths in
scope are ASCII, so bytes and characters coincide).  Modification times are
embedded as `Int` nanoseconds since Go's zero time.  Fallible operations
return `Except`.
-/

/-- A Go string (path), embedded as a list of characters. -/
abbrev GoStr := List Char

/-- Convert a Lean string literal to the embedding type. -/
def str (s : String) : GoStr := s.toList

deriving instance DecidableEq for Except

namespace Gsync

/-- Embedding of Go `strings.Split(s, "/")`: split a string on every
occurrence of the separator character, keeping empty segments.
`strings.Split("", "/") = [""]`. -/
def splitSlash : GoStr → List GoStr
  | [] => [[]]
  | c :: rest =>
    match splitSlash rest with
    | [] => []
    | seg :: segs => if c = '/' then [] :: seg :: segs else (c :: seg) :: segs

/-- The normalization filter used in `destPath` (`sync.go` lines 34-53):
keep a segment `v` iff `v != "." && v != ".." && v != ""`. -/
def keepSeg (v : GoStr) : Bool :=
  !(v = ['.']) && !(v = ['.', '.']) && !(v = [])

/-- Normalized segment list of a path: split on "/" and drop empty, "." and
".." segments, exactly as the three loops in `destPath` do. -/
def normSegs (s : GoStr) : List GoStr :=
  (splitSlash s).filter keepSeg

/-- Embedding of Go `strings.HasSuffix(s, "/")`: true iff the last byte is
the separator. -/
def hasSuffixSlash (s : GoStr) : Bool :=
  match s.getLast? with
  | some c => c = '/'
  | none => false

/-- Embedding of Go `strings.Join(xs, "/")`. -/
def joinSlash : List GoStr → GoStr
  | [] => []
  | [x] => x
  | x :: y :: xs => x ++ '/' :: joinSlash (y :: xs)

/-- Embedding of `destPath` (`sync.go` lines 24-74).  The Go code slices
`sfile[len(sdir):]`, which panics when `len(sdir) > len(sfile)`; the panic
is embedded as `none`. -/
def destPath (srcdir dstdir srcfile : GoStr) : Option GoStr :=
  let sdir := normSegs srcdir
  let sfile := normSegs srcfile
  let ddir := normSegs dstdir
  if sdir.length ≤ sfile.length then
    let barefile := sfile.drop sdir.length
    let dst :=
      if hasSuffixSlash srcdir then
        ddir ++ barefile
      else
        ddir ++ (sdir.getLast?.toList) ++ barefile
    some (joinSlash dst)
  else
    none

/-- Byte-wise lexicographic comparison `a ≤ b` on strings, the order used by
Go's `sort.Strings` (`s[i] < s[j]` on byte strings). -/
def goLE : GoStr → GoStr → Bool
  | [], _ => true
  | _ :: _, [] => false
  | a :: as, b :: bs => if a = b then goLE as bs else decide (a < b)

/-- `goLE` as a relation, for use with `List.insertionSort`. -/
def strLe (a b : GoStr) : Prop := goLE a b = true

instance : DecidableRel strLe := fun a b => by
  unfold strLe
  infer_instance

instance : IsTotal GoStr strLe where
  total a b := by
    induction a generalizing b with
    | nil => exact Or.inl rfl
    | cons x as ih =>
      cases b with
      | nil => exact Or.inr rfl
      | cons y bs =>
        by_cases hxy : x = y
        · subst hxy
          rcases ih bs with h | h
          · exact Or.inl (by simpa [strLe, goLE] using h)
          · exact Or.inr (by simpa [strLe, goLE] using h)
        · rcases lt_trichotomy x y with h | h | h
          · exact Or.inl (by simp [strLe, goLE, hxy, h])
          · exact absurd h hxy
          · exact Or.inr (by simp [strLe, goLE, Ne.symm hxy, h])

instance : IsTrans GoStr strLe where
  trans a b c h1 h2 := by
    induction a generalizing b c with
    | nil => rfl
    | cons x as ih =>
      cases b with
      | nil => simp [strLe, goLE] at h1
      | cons y bs =>
        cases c with
        | nil => simp [strLe, goLE] at h2
        | cons z cs =>
          simp only [strLe, goLE] at h1 h2 ⊢
          by_cases hxy : x = y
          · subst hxy
            by_cases hxz : x = z
            · subst hxz
              simp only [if_pos rfl] at h1 h2 ⊢
              exact ih bs cs h1 h2
            · simpa [hxz] using h2
          · by_cases hyz : y = z
            · subst hyz
              simpa [hxy] using h1
            · simp only [if_neg hxy, decide_eq_true_eq] at h1
              simp only [if_neg hyz, decide_eq_true_eq] at h2
              have hxz : x < z := lt_trans h1 h2
              simp [ne_of_lt hxz, hxz]

/-- Embedding of `sort.Strings(srctree)` (`sync.go` line 191): sort by
byte-wise lexicographic order. -/
def sortStrings (l : List GoStr) : List GoStr := List.insertionSort strLe l

/-- Nanoseconds per second. -/
def nsPerSec : Int := 1000000000

/-- Embedding of Go's `time.Time.Truncate(time.Second)`: round the timestamp
down to a whole multiple of a second since the zero time.  Timestamps are
embedded as nanoseconds (`Int`) since Go's zero time. -/
def truncSec (n : Int) : Int := nsPerSec * Int.fdiv n nsPerSec

/-- Classification of a filesystem entry (directory / regular file / other). -/
inductive FKind
  | dir
  | regular
  | other
deriving DecidableEq

/-- A filesystem node: kind, modification time (ns), content (abstracted to a
number) and whether a streaming read of it succeeds. -/
structure FNode where
  kind : FKind
  mtimeNs : Int
  content : Nat
  readable : Bool
deriving DecidableEq

/-- Model of one side's filesystem state behind the local VFS backend
(`vfs/local/local.go`): an association list from path to node, plus injected
fault sets naming the paths at which `Mkdir`, `WriteToFile` and `SetMtime`
fail (modelling I/O errors of the underlying OS calls), and the paths at
which the `os.Stat` inside `IsDir`/`IsRegular` fails with a
non-`IsNotExist` error (modelling transport/permission failures of the
classification calls). -/
structure ModelFS where
  files : List (GoStr × FNode)
  mkdirFails : List GoStr
  writeFails : List GoStr
  setMtimeFails : List GoStr
  classifyFails : List GoStr
deriving DecidableEq

/-- Look up the node stored at a path (first match). -/
def findNode (fs : ModelFS) (p : GoStr) : Option FNode :=
  (fs.files.find? (fun q => decide (q.1 = p))).map Prod.snd

/-- Store a node at a path, replacing any previous binding. -/
def setNode (fs : ModelFS) (p : GoStr) (n : FNode) : ModelFS :=
  { fs with files := (p, n) :: fs.files.filter (fun q => !decide (q.1 = p)) }

/-- Engine-level error kinds, each carrying the offending path
(`sync` returns the first fatal error). -/
inductive SyncErr
  | dstMissing (p : GoStr)
  | dstNotDir (p : GoStr)
  | patternErr (p : GoStr)
  | destPathPanic (p : GoStr)
  | mtimeErr (p : GoStr)
  | mkdirErr (p : GoStr)
  | writeErr (p : GoStr)
  | setMtimeErr (p : GoStr)
  | classifyErr (p : GoStr)
deriving DecidableEq

/-- `FileExists` of the local backend (`local.go` lines 234-240): `os.Stat`
fails exactly when the node is absent, and any failure is reported as plain
non-existence (`false, nil`), so the operation never returns an error. -/
def fileExistsFS (fs : ModelFS) (p : GoStr) : Bool := (findNode fs p).isSome

/-- The successful answer of `IsDir` (`local.go` lines 265-274): an absent
path gives `false` (the `os.IsNotExist` branch), a found node is tested for
directory kind. -/
def isDirFS (fs : ModelFS) (p : GoStr) : Bool :=
  match findNode fs p with
  | some n => decide (n.kind = FKind.dir)
  | none => false

/-- The successful answer of `IsRegular` (`local.go` lines 278-287),
analogously. -/
def isRegularFS (fs : ModelFS) (p : GoStr) : Bool :=
  match findNode fs p with
  | some n => decide (n.kind = FKind.regular)
  | none => false

/-- `IsDir` as called by the engine (`local.go` lines 265-274): a
non-`IsNotExist` stat failure (at the injected fault paths) is returned as
an error; otherwise the boolean answer. -/
def isDirOp (fs : ModelFS) (p : GoStr) : Except SyncErr Bool :=
  if p ∈ fs.classifyFails then Except.error (SyncErr.classifyErr p)
  else Except.ok (isDirFS fs p)

/-- `IsRegular` as called by the engine (`local.go` lines 278-287): same
error discipline as `IsDir`. -/
def isRegularOp (fs : ModelFS) (p : GoStr) : Except SyncErr Bool :=
  if p ∈ fs.classifyFails then Except.error (SyncErr.classifyErr p)
  else Except.ok (isRegularFS fs p)

/-- `Mtime` (`local.go` lines 297-303): stat failure (absence) is an error. -/
def mtimeFS (fs : ModelFS) (p : GoStr) : Except SyncErr Int :=
  match findNode fs p with
  | some n => Except.ok n.mtimeNs
  | none => Except.error (SyncErr.mtimeErr p)

/-- `Mkdir` (`local.go` lines 290-293): creates a directory node; fails at
the injected fault paths. -/
def mkdirFS (fs : ModelFS) (p : GoStr) : Except SyncErr ModelFS :=
  if p ∈ fs.mkdirFails then Except.error (SyncErr.mkdirErr p)
  else Except.ok (setNode fs p { kind := FKind.dir, mtimeNs := 0, content := 0, readable := true })

/-- `ReadFromFile` (`local.go` lines 306-308): opening the source can fail
(absent or unreadable node); the error type is opaque to the engine, which
catches it. -/
def readFromFileFS (fs : ModelFS) (p : GoStr) : Except Unit Nat :=
  match findNode fs p with
  | some n => if n.readable then Except.ok n.content else Except.error ()
  | none => Except.error ()

/-- `WriteToFile` (`local.go` lines 332-386): replaces the destination node
with a regular file holding the written content (the write-then-rename gives
the node a fresh mtime, modelled as 0, immediately overwritten by the
engine's `SetMtime`); fails at the injected fault paths. -/
def writeToFileFS (fs : ModelFS) (p : GoStr) (content : Nat) : Except SyncErr ModelFS :=
  if p ∈ fs.writeFails then Except.error (SyncErr.writeErr p)
  else Except.ok (setNode fs p
    { kind := FKind.regular, mtimeNs := 0, content := content, readable := true })

/-- `SetMtime` (`local.go` lines 311-314, `os.Chtimes`): sets the node's
mtime; fails when the node is absent or at the injected fault paths. -/
def setMtimeFS (fs : ModelFS) (p : GoStr) (t : Int) : Except SyncErr ModelFS :=
  if p ∈ fs.setMtimeFails then Except.error (SyncErr.setMtimeErr p)
  else
    match findNode fs p with
    | some n => Except.ok (setNode fs p { n with mtimeNs := t })
    | none => Except.error (SyncErr.setMtimeErr p)

/-- Modelled from the spec: `FileTree` (`local.go` lines 243-261) enumerates,
via `filepath.Walk` (standard-library code outside this repository), every
path under the root — the root itself and all entries below it, each having
the root as a path prefix — deduplicated and sorted. -/
def fileTreeFS (fs : ModelFS) (root : GoStr) : List GoStr :=
  sortStrings (((fs.files.map Prod.fst).filter (fun p => decide (root <+: p))).dedup)

/-- Embedding of `needToCopy` (`sync.go` lines 82-113): copy iff the
destination is absent, or both mtimes (truncated to whole seconds) satisfy
source strictly after destination. -/
def needToCopy (srcfs dstfs : ModelFS) (srcpath dstpath : GoStr) : Except SyncErr Bool :=
  if !(fileExistsFS dstfs dstpath) then Except.ok true
  else
    match mtimeFS srcfs srcpath with
    | Except.error e => Except.error e
    | Except.ok srcM =>
      match mtimeFS dstfs dstpath with
      | Except.error e => Except.error e
      | Except.ok dstM => Except.ok (decide (truncSec srcM > truncSec dstM))

/-- Modelled from the spec: one element of a glob character class in Go's
`path/filepath.Match` (standard-library code outside this repository) — a
literal or `\`-escaped character; errors on an empty, `-`-leading or
`]`-leading chunk and when nothing follows the element. -/
def getEscChar : GoStr → Except Unit (Char × GoStr)
  | [] => Except.error ()
  | c :: rest =>
    if c = '-' ∨ c = ']' then Except.error ()
    else
      match (if c = '\\' then rest else c :: rest) with
      | [] => Except.error ()
      | d :: rest' => if rest' = [] then Except.error () else Except.ok (d, rest')

/-- Modelled from the spec: the range list of a glob character class in Go's
`path/filepath.Match`; tests character `r` against each `lo`-`hi` range until
the closing `]` (which must follow at least one range). -/
def classRanges (r : Char) (fuel : Nat) (chunk : GoStr) (seen m : Bool) :
    Except Unit (Bool × GoStr) :=
  match fuel with
  | 0 => Except.error ()
  | Nat.succ fuel' =>
    match chunk with
    | ']' :: rest =>
      if seen then Except.ok (m, rest) else Except.error ()
    | chunk' =>
      match getEscChar chunk' with
      | Except.error _ => Except.error ()
      | Except.ok (lo, c1) =>
        match c1 with
        | '-' :: c2 =>
          match getEscChar c2 with
          | Except.error _ => Except.error ()
          | Except.ok (hi, c3) =>
            classRanges r fuel' c3 true (m || (decide (lo ≤ r) && decide (r ≤ hi)))
        | _ => classRanges r fuel' c1 true (m || decide (r = lo))

/-- Modelled from the spec: Go's `path/filepath.Match` (standard-library code
outside this repository).  `*` matches any possibly-empty run of
non-separator characters, `?` any single non-separator character, `[...]` and
`[^...]` character classes with ranges, `\c` the literal `c`; the pattern
must match the whole name; malformed patterns give `ErrBadPattern`
(`Except.error ()`).  `fuel` bounds the recursion; `pat.length + name.length
+ 1` always suffices. -/
def matchGlob (fuel : Nat) (pat name : GoStr) : Except Unit Bool :=
  match fuel with
  | 0 => Except.error ()
  | Nat.succ f =>
    match pat with
    | [] => Except.ok (decide (name = []))
    | '*' :: p' =>
      match matchGlob f p' name with
      | Except.error e => Except.error e
      | Except.ok true => Except.ok true
      | Except.ok false =>
        match name with
        | c :: name' =>
          if c = '/' then Except.ok false else matchGlob f ('*' :: p') name'
        | [] => Except.ok false
    | '?' :: p' =>
      match name with
      | c :: name' => if c = '/' then Except.ok false else matchGlob f p' name'
      | [] => Except.ok false
    | '[' :: p' =>
      match name with
      | [] => Except.ok false
      | c :: name' =>
        match (match p' with
               | '^' :: q => (true, q)
               | q => (false, q)) with
        | (negated, p'') =>
          match classRanges c (p''.length + 1) p'' false false with
          | Except.error e => Except.error e
          | Except.ok (m, prest) =>
            if m = negated then Except.ok false else matchGlob f prest name'
    | '\\' :: p' =>
      match p' with
      | [] => Except.error ()
      | d :: p'' =>
        match name with
        | [] => Except.ok false
        | c :: name' => if c = d then matchGlob f p'' name' else Except.ok false
    | c :: p' =>
      match name with
      | [] => Except.ok false
      | d :: name' => if d = c then matchGlob f p' name' else Except.ok false

/-- `filepath.Match` with adequate fuel. -/
def goMatch (pat name : GoStr) : Except Unit Bool :=
  matchGlob (pat.length + name.length + 1) pat name

/-- Trailing separators removed, as in Go `path.Base`. -/
def stripTrailingSlashes (p : GoStr) : GoStr :=
  (p.reverse.dropWhile (fun c => decide (c = '/'))).reverse

/-- The suffix after the last separator (the whole string when there is
none), as in Go `path.Base`. -/
def afterLastSlash (p : GoStr) : GoStr :=
  (p.reverse.takeWhile (fun c => decide (c ≠ '/'))).reverse

/-- Embedding of Go `path.Base` (used by `excluded`, `sync.go` line 123):
"." for the empty path, "/" when the path is all slashes, otherwise the last
path element with trailing slashes removed. -/
def pathBase (p : GoStr) : GoStr :=
  if p = [] then ['.']
  else
    let r := afterLastSlash (stripTrailingSlashes p)
    if r = [] then ['/'] else r

/-- The pattern loop of `excluded` (`sync.go` lines 124-134): try each
configured pattern in order against the basename, returning on the first
match; an invalid pattern is a (fatal) error. -/
def matchFirst (pats : List GoStr) (fname : GoStr) : Except SyncErr Bool :=
  match pats with
  | [] => Except.ok false
  | pat :: rest =>
    match goMatch pat fname with
    | Except.error _ => Except.error (SyncErr.patternErr pat)
    | Except.ok true => Except.ok true
    | Except.ok false => matchFirst rest fname

/-- Embedding of `excluded` (`sync.go` lines 122-136): match the path's
basename — never the full path — against the exclusion patterns in order. -/
def excluded (pats : List GoStr) (pathname : GoStr) : Except SyncErr Bool :=
  matchFirst pats (pathBase pathname)

/-- Configuration of one run (`opt.dryrun`, `opt.exclude`). -/
structure Opts where
  dryrun : Bool
  exclude : List GoStr
deriving DecidableEq

/-- Per-entry decision/report issued by the engine while traversing, in
order: entry excluded; destination directory created (`log.Verboseln` of the
dir in both modes); destination directory already present (silent, pair still
recorded); file copy needed (`log.Verboseln` of the file); file unchanged;
source read failed (warning, entry skipped); entry neither directory nor
regular file (warning). -/
inductive Decision
  | excludedEntry (src : GoStr)
  | createDir (dst : GoStr)
  | dirExists (dst : GoStr)
  | copyFile (dst : GoStr)
  | unchanged (dst : GoStr)
  | warnRead (src : GoStr)
  | warnOther (src : GoStr)
deriving DecidableEq

/-- A mutating VFS call issued against the destination. -/
inductive Event
  | mkdir (p : GoStr)
  | write (p : GoStr) (content : Nat)
  | setMtime (p : GoStr) (t : Int)
deriving DecidableEq

/-- State carried through the main traversal loop of `sync`: the destination
filesystem, the recorded directory pairs (append order = recording order),
and the decision and mutation traces. -/
structure LoopSt where
  dfs : ModelFS
  dirpairs : List (GoStr × GoStr)
  decs : List Decision
  evs : List Event
deriving DecidableEq

/-- Embedding of one iteration of the main loop of `sync`
(`sync.go` lines 193-268): exclusion check, destination-path computation,
classification via `IsDir`/`IsRegular` (a classification error is fatal,
`sync.go` lines 206-213), then the directory / regular-file / other branch. -/
def syncStep (o : Opts) (srcpath dstdir : GoStr) (sfs : ModelFS) (st : LoopSt)
    (src : GoStr) : Except SyncErr LoopSt :=
  match excluded o.exclude src with
  | Except.error e => Except.error e
  | Except.ok true => Except.ok { st with decs := st.decs ++ [Decision.excludedEntry src] }
  | Except.ok false =>
    match destPath srcpath dstdir src with
    | none => Except.error (SyncErr.destPathPanic src)
    | some dst =>
      match isDirOp sfs src with
      | Except.error e => Except.error e
      | Except.ok isdir =>
      match isRegularOp sfs src with
      | Except.error e => Except.error e
      | Except.ok isregular =>
      if isdir then
        if fileExistsFS st.dfs dst then
          Except.ok { st with dirpairs := st.dirpairs ++ [(src, dst)],
                              decs := st.decs ++ [Decision.dirExists dst] }
        else if o.dryrun then
          Except.ok { st with dirpairs := st.dirpairs ++ [(src, dst)],
                              decs := st.decs ++ [Decision.createDir dst] }
        else
          match mkdirFS st.dfs dst with
          | Except.error e => Except.error e
          | Except.ok dfs' =>
            Except.ok { dfs := dfs', dirpairs := st.dirpairs ++ [(src, dst)],
                        decs := st.decs ++ [Decision.createDir dst],
                        evs := st.evs ++ [Event.mkdir dst] }
      else if isRegularFS sfs src then
        match needToCopy sfs st.dfs src dst with
        | Except.error e => Except.error e
        | Except.ok false => Except.ok { st with decs := st.decs ++ [Decision.unchanged dst] }
        | Except.ok true =>
          if o.dryrun then
            Except.ok { st with decs := st.decs ++ [Decision.copyFile dst] }
          else
            match readFromFileFS sfs src with
            | Except.error _ =>
              Except.ok { st with decs := st.decs ++ [Decision.warnRead src] }
            | Except.ok content =>
              match writeToFileFS st.dfs dst content with
              | Except.error e => Except.error e
              | Except.ok dfs1 =>
                match mtimeFS sfs src with
                | Except.error e => Except.error e
                | Except.ok mt =>
                  match setMtimeFS dfs1 dst mt with
                  | Except.error e => Except.error e
                  | Except.ok dfs2 =>
                    Except.ok { dfs := dfs2, dirpairs := st.dirpairs,
                                decs := st.decs ++ [Decision.copyFile dst],
                                evs := st.evs ++
                                  [Event.write dst content, Event.setMtime dst mt] }
      else
        Except.ok { st with decs := st.decs ++ [Decision.warnOther src] }

/-- The main traversal loop of `sync`: process entries in order, aborting on
the first fatal error (returning the state reached so far). -/
def syncLoop (o : Opts) (srcpath dstdir : GoStr) (sfs : ModelFS) :
    LoopSt → List GoStr → LoopSt × Option SyncErr
  | st, [] => (st, none)
  | st, src :: rest =>
    match syncStep o srcpath dstdir sfs st src with
    | Except.error e => (st, some e)
    | Except.ok st' => syncLoop o srcpath dstdir sfs st' rest

/-- Embedding of the restoration loop of `sync` (`sync.go` lines 275-287):
`for ix := len(dirpairs) - 1; ix >= 0; ix--`, setting each destination
directory's mtime to its source counterpart's, aborting on the first error. -/
def restFrom (sfs : ModelFS) (pairs : List (GoStr × GoStr)) :
    ModelFS → List Event → Nat → (ModelFS × List Event) × Option SyncErr
  | dfs, evs, 0 => ((dfs, evs), none)
  | dfs, evs, Nat.succ ix' =>
    match pairs.get? ix' with
    | none => ((dfs, evs), none)
    | some pr =>
      match mtimeFS sfs pr.1 with
      | Except.error e => ((dfs, evs), some e)
      | Except.ok mt =>
        match setMtimeFS dfs pr.2 mt with
        | Except.error e => ((dfs, evs), some e)
        | Except.ok dfs' => restFrom sfs pairs dfs' (evs ++ [Event.setMtime pr.2 mt]) ix'

/-- The entry set of a run (`sync.go` lines 177-191): the enumerated tree
when the source is a directory, else the singleton source path; sorted
lexicographically. -/
def entriesOf (sfs : ModelFS) (srcpath : GoStr) : List GoStr :=
  sortStrings (if isDirFS sfs srcpath then fileTreeFS sfs srcpath else [srcpath])

/-- The directory pairs the main loop records for a given entry list: one
pair per non-excluded directory entry, in traversal order. -/
def dirPairsOf (ex : List GoStr) (srcpath dstdir : GoStr) (sfs : ModelFS)
    (entries : List GoStr) : List (GoStr × GoStr) :=
  entries.filterMap (fun e =>
    match excluded ex e, destPath srcpath dstdir e with
    | Except.ok false, some d => if isDirFS sfs e then some (e, d) else none
    | _, _ => none)

/-- The stored mtime of a path, defaulting to 0 when absent (used only to
state traces; the engine never reads the default). -/
def mtimeD (fs : ModelFS) (p : GoStr) : Int :=
  ((findNode fs p).map FNode.mtimeNs).getD 0

/-- Outcome of one `sync` run: the first fatal error if any, the final
destination state, the recorded directory pairs, and the decision and
mutation traces. -/
structure SyncResult where
  err : Option SyncErr
  dfs : ModelFS
  dirpairs : List (GoStr × GoStr)
  decs : List Decision
  evs : List Event
deriving DecidableEq

/-- Embedding of `sync` (`sync.go` lines 152-291): preconditions on the
destination (`FileExists`, then `IsDir` — whose classification error is
fatal), entry-set determination via `IsDir` on the source root (its
classification error fatal too), lexicographic sort, main loop, then —
unless in dry-run mode — the reverse-order mtime restoration pass. -/
def sync (o : Opts) (srcpath dstdir : GoStr) (sfs dfs0 : ModelFS) : SyncResult :=
  if !(fileExistsFS dfs0 dstdir) then
    { err := some (SyncErr.dstMissing dstdir), dfs := dfs0, dirpairs := [],
      decs := [], evs := [] }
  else match isDirOp dfs0 dstdir with
  | Except.error e =>
    { err := some e, dfs := dfs0, dirpairs := [], decs := [], evs := [] }
  | Except.ok ddIsDir =>
    if !ddIsDir then
      { err := some (SyncErr.dstNotDir dstdir), dfs := dfs0, dirpairs := [],
        decs := [], evs := [] }
    else match isDirOp sfs srcpath with
    | Except.error e =>
      { err := some e, dfs := dfs0, dirpairs := [], decs := [], evs := [] }
    | Except.ok _ =>
    let st0 : LoopSt := { dfs := dfs0, dirpairs := [], decs := [], evs := [] }
    match syncLoop o srcpath dstdir sfs st0 (entriesOf sfs srcpath) with
    | (st, some e) =>
      { err := some e, dfs := st.dfs, dirpairs := st.dirpairs, decs := st.decs,
        evs := st.evs }
    | (st, none) =>
      if o.dryrun then
        { err := none, dfs := st.dfs, dirpairs := st.dirpairs, decs := st.decs,
          evs := st.evs }
      else
        match restFrom sfs st.dirpairs st.dfs [] st.dirpairs.length with
        | ((dfs', revs), oe) =>
          { err := oe, dfs := dfs', dirpairs := st.dirpairs, decs := st.decs,
            evs := st.evs ++ revs }

/-- Outcome of `os.Stat` as seen by the local backend: a node of some kind,
plain non-existence, or a different (permission/transport) failure. -/
inductive StatOutcome
  | found (k : FKind)
  | notExist
  | otherErr
deriving DecidableEq

/-- `FileExists` of the local backend (`local.go` lines 234-240) as a
function of the stat outcome: any stat failure — non-existence or not — is
reported as `false` with no error. -/
def localFileExists (st : StatOutcome) : Except Unit Bool :=
  match st with
  | StatOutcome.found _ => Except.ok true
  | StatOutcome.notExist => Except.ok false
  | StatOutcome.otherErr => Except.ok false

/-- `IsDir` of the local backend (`local.go` lines 265-274) as a function of
the stat outcome: non-existence gives `false` with no error, any other stat
failure is returned as an error. -/
def localIsDir (st : StatOutcome) : Except Unit Bool :=
  match st with
  | StatOutcome.found k => Except.ok (decide (k = FKind.dir))
  | StatOutcome.notExist => Except.ok false
  | StatOutcome.otherErr => Except.error ()

/-- `IsRegular` of the local backend (`local.go` lines 278-287) as a
function of the stat outcome. -/
def localIsRegular (st : StatOutcome) : Except Unit Bool :=
  match st with
  | StatOutcome.found k => Except.ok (decide (k = FKind.regular))
  | StatOutcome.notExist => Except.ok false
  | StatOutcome.otherErr => Except.error ()

/-- `splitSlash` never returns the empty list. -/
theorem splitSlash_ne_nil (s : GoStr) : splitSlash s ≠ [] := by
  induction s with
  | nil => simp [splitSlash]
  | cons c rest ih =>
    simp only [splitSlash]
    cases h : splitSlash rest with
    | nil => exact absurd h ih
    | cons seg segs =>
      by_cases hc : c = '/' <;> simp [hc]

/-- Splitting a concatenation: the last segment of the left part merges with
the first segment of the right part. -/
theorem splitSlash_append (s r : GoStr) :
    ∃ init lastS b bs, splitSlash s = init ++ [lastS] ∧ splitSlash r = b :: bs ∧
      splitSlash (s ++ r) = init ++ (lastS ++ b) :: bs := by
  induction s with
  | nil =>
    cases hr : splitSlash r with
    | nil => exact absurd hr (splitSlash_ne_nil r)
    | cons b bs => exact ⟨[], [], b, bs, rfl, rfl, by simpa [splitSlash] using hr⟩
  | cons c s' ih =>
    obtain ⟨init, lastS, b, bs, hs, hr, hsr⟩ := ih
    by_cases hc : c = '/'
    · refine ⟨[] :: init, lastS, b, bs, ?_, hr, ?_⟩
      · cases init <;> simp_all [splitSlash]
      · cases init <;> simp_all [splitSlash]
    · cases init with
      | nil =>
        refine ⟨[], c :: lastS, b, bs, ?_, hr, ?_⟩
        · simp_all [splitSlash]
        · simp_all [splitSlash]
      | cons i0 irest =>
        refine ⟨(c :: i0) :: irest, lastS, b, bs, ?_, hr, ?_⟩
        · simp_all [splitSlash]
        · simp_all [splitSlash]

/-- A segment that survives normalization still survives after extending it
on the right: a nonempty segment other than "." and ".." cannot become
empty, "." or ".." by appending characters. -/
theorem keepSeg_append (v b : GoStr) (h : keepSeg v = true) : keepSeg (v ++ b) = true := by
  simp only [keepSeg, Bool.and_eq_true, Bool.not_eq_true', decide_eq_false_iff_not] at h ⊢
  refine ⟨⟨fun hc => ?_, fun hc => ?_⟩, fun hc => h.2 (List.append_eq_nil.mp hc).1⟩
  · cases v with
    | nil => exact h.2 rfl
    | cons x v' =>
      have hx : x = '.' ∧ v' ++ b = [] := by simpa using hc
      have hv' : v' = [] := (List.append_eq_nil.mp hx.2).1
      exact h.1.1 (by simp [hx.1, hv'])
  · cases v with
    | nil => exact h.2 rfl
    | cons x v' =>
      have hx : x = '.' ∧ v' ++ b = ['.'] := by simpa using hc
      cases v' with
      | nil => exact h.1.1 (by simp [hx.1])
      | cons y v'' =>
        have hy : y = '.' ∧ v'' ++ b = [] := by simpa using hx.2
        have hv'' : v'' = [] := (List.append_eq_nil.mp hy.2).1
        exact h.1.2 (by simp [hx.1, hy.1, hv''])

/-- Normalizing an extension of a path yields at least as many segments. -/
theorem normSegs_length_le_of_append (s r : GoStr) :
    (normSegs s).length ≤ (normSegs (s ++ r)).length := by
  obtain ⟨init, lastS, b, bs, hs, _, hsr⟩ := splitSlash_append s r
  simp only [normSegs, hs, hsr, List.filter_append, List.length_append, List.filter_cons]
  by_cases hk : keepSeg lastS
  · simp [hk, keepSeg_append lastS b hk]
  · by_cases hkb : keepSeg (lastS ++ b)
    · simp [hk, hkb]
    · simp [hk, hkb]

/-- A path prefix normalizes to at most as many segments. -/
theorem normSegs_length_le_of_prefix (s t : GoStr) (h : s <+: t) :
    (normSegs s).length ≤ (normSegs t).length := by
  obtain ⟨r, rfl⟩ := h
  exact normSegs_length_le_of_append s r

/-- Evaluation of `destPath` when the normalized source path decomposes as
the normalized source root followed by a segment tail. -/
theorem destPath_eq_of_decomp (srcdir dstdir srcfile : GoStr) (t : List GoStr)
    (h : normSegs srcfile = normSegs srcdir ++ t) :
    destPath srcdir dstdir srcfile =
      some (joinSlash (normSegs dstdir ++
        (if hasSuffixSlash srcdir then [] else (normSegs srcdir).getLast?.toList) ++ t)) := by
  simp only [destPath, h]
  have hlen : (normSegs srcdir).length ≤ (normSegs srcdir ++ t).length := by
    simp
  rw [if_pos hlen, List.drop_left]
  by_cases hs : hasSuffixSlash srcdir <;> simp [hs]

/-- `destPath` returns a value (rather than panicking on the slice
`sfile[len(sdir):]`) iff the normalized source path has at least as many
segments as the normalized source root. -/
theorem destPath_isSome_iff (srcdir dstdir srcfile : GoStr) :
    (destPath srcdir dstdir srcfile).isSome = true ↔
      (normSegs srcdir).length ≤ (normSegs srcfile).length := by
  simp only [destPath]
  by_cases h : (normSegs srcdir).length ≤ (normSegs srcfile).length <;> simp [h]

end Gsync

open Gsync in
/-- C1: `destPath` is a pure function implementing the trailing-slash rule over
normalized segment lists (empty, "." and ".." segments dropped): when the
source root ends in a separator the result is the destination root's segments
followed by the source path's segments with the source-root prefix removed;
otherwise the last segment of the source root (if any) is inserted between
them.  In particular `destPath("/d1", "/dest", "/d1/foo") = "dest/d1/foo"`,
`destPath("/d1/", "/dest", "/d1/foo") = "dest/foo"` and
`destPath(".", "/dest", "./foo/bar") = "dest/foo/bar"`. -/
theorem C1_destPath_trailing_slash_rule :
    (∀ srcdir dstdir srcfile t, normSegs srcfile = normSegs srcdir ++ t →
      destPath srcdir dstdir srcfile =
        some (joinSlash (normSegs dstdir ++
          (if hasSuffixSlash srcdir then [] else (normSegs srcdir).getLast?.toList) ++ t))) ∧
    destPath (str "/d1") (str "/dest") (str "/d1/foo") = some (str "dest/d1/foo") ∧
    destPath (str "/d1/") (str "/dest") (str "/d1/foo") = some (str "dest/foo") ∧
    destPath (str ".") (str "/dest") (str "./foo/bar") = some (str "dest/foo/bar") :=
  ⟨destPath_eq_of_decomp, by decide, by decide, by decide⟩

open Gsync in
/-- Witness for C1 at a concrete input: the decomposition hypothesis holds for
source root "/d1" and source path "/d1/foo" with tail ["foo"], and the general
rule evaluates accordingly. -/
theorem C1_destPath_trailing_slash_rule_witness :
    normSegs (str "/d1/foo") = normSegs (str "/d1") ++ [str "foo"] ∧
    destPath (str "/d1") (str "/dest") (str "/d1/foo") =
      some (joinSlash (normSegs (str "/dest") ++
        (if hasSuffixSlash (str "/d1") then [] else (normSegs (str "/d1")).getLast?.toList) ++
          [str "foo"])) :=
  ⟨by decide, C1_destPath_trailing_slash_rule.1 (str "/d1") (str "/dest") (str "/d1/foo")
    [str "foo"] (by decide)⟩

namespace Gsync

/-- Looking up the path just stored gives the new node. -/
theorem findNode_setNode_same (fs : ModelFS) (p : GoStr) (n : FNode) :
    findNode (setNode fs p n) p = some n := by
  simp [findNode, setNode, List.find?]

/-- Looking up a different path is unaffected by a store. -/
theorem findNode_setNode_other (fs : ModelFS) (p q : GoStr) (n : FNode) (h : q ≠ p) :
    findNode (setNode fs p n) q = findNode fs q := by
  simp only [findNode, setNode]
  rw [List.find?_cons_of_neg _ (by simpa using Ne.symm h)]
  induction fs.files with
  | nil => simp
  | cons a rest ih =>
    by_cases hap : a.1 = p
    · rw [List.filter_cons_of_neg (by simp [hap])]
      rw [List.find?_cons_of_neg _ (by simp [hap, Ne.symm h])]
      exact ih
    · rw [List.filter_cons_of_pos (by simp [hap])]
      by_cases haq : a.1 = q
      · rw [List.find?_cons_of_pos _ (by simpa using haq),
          List.find?_cons_of_pos _ (by simpa using haq)]
      · rw [List.find?_cons_of_neg _ (by simpa using haq),
          List.find?_cons_of_neg _ (by simpa using haq)]
        exact ih

/-- Stores do not change the injected fault sets. -/
theorem setNode_fails (fs : ModelFS) (p : GoStr) (n : FNode) :
    (setNode fs p n).mkdirFails = fs.mkdirFails ∧
    (setNode fs p n).writeFails = fs.writeFails ∧
    (setNode fs p n).setMtimeFails = fs.setMtimeFails ∧
    (setNode fs p n).classifyFails = fs.classifyFails :=
  ⟨rfl, rfl, rfl, rfl⟩

/-- `isDirOp` at a fault-free path is the boolean classification. -/
theorem isDirOp_ok (fs : ModelFS) (p : GoStr) (h : p ∉ fs.classifyFails) :
    isDirOp fs p = Except.ok (isDirFS fs p) := by
  simp [isDirOp, h]

/-- `isRegularOp` at a fault-free path is the boolean classification. -/
theorem isRegularOp_ok (fs : ModelFS) (p : GoStr) (h : p ∉ fs.classifyFails) :
    isRegularOp fs p = Except.ok (isRegularFS fs p) := by
  simp [isRegularOp, h]

/-- `isDirOp` at an injected stat-fault path is the classification error. -/
theorem isDirOp_err (fs : ModelFS) (p : GoStr) (h : p ∈ fs.classifyFails) :
    isDirOp fs p = Except.error (SyncErr.classifyErr p) := by
  simp [isDirOp, h]

/-- `isRegularOp` at an injected stat-fault path is the classification
error. -/
theorem isRegularOp_err (fs : ModelFS) (p : GoStr) (h : p ∈ fs.classifyFails) :
    isRegularOp fs p = Except.error (SyncErr.classifyErr p) := by
  simp [isRegularOp, h]

end Gsync

open Gsync in
/-- C2: `needToCopy` returns true iff the destination does not exist, or the
source and destination mtimes truncated to whole seconds satisfy source
strictly after destination; it returns false when the truncated mtimes are
equal, and true whenever the destination is absent regardless of either
mtime. -/
theorem C2_needToCopy_mtime_rule :
    (∀ srcfs dstfs srcpath dstpath, findNode dstfs dstpath = none →
      needToCopy srcfs dstfs srcpath dstpath = Except.ok true) ∧
    (∀ srcfs dstfs srcpath dstpath sn dn,
      findNode srcfs srcpath = some sn → findNode dstfs dstpath = some dn →
      (needToCopy srcfs dstfs srcpath dstpath = Except.ok true ↔
        truncSec sn.mtimeNs > truncSec dn.mtimeNs)) ∧
    (∀ srcfs dstfs srcpath dstpath sn dn,
      findNode srcfs srcpath = some sn → findNode dstfs dstpath = some dn →
      truncSec sn.mtimeNs = truncSec dn.mtimeNs →
      needToCopy srcfs dstfs srcpath dstpath = Except.ok false) := by
  refine ⟨fun srcfs dstfs srcpath dstpath h => ?_,
    fun srcfs dstfs srcpath dstpath sn dn hs hd => ?_,
    fun srcfs dstfs srcpath dstpath sn dn hs hd heq => ?_⟩
  · simp [needToCopy, fileExistsFS, h]
  · simp only [needToCopy, fileExistsFS, hd, Option.isSome_some, Bool.not_true,
      Bool.false_eq_true, if_false, mtimeFS, hs]
    constructor
    · intro hok
      have := Except.ok.injEq (α := Bool) _ _ ▸ hok
      simpa using hok
    · intro hlt
      simp [hlt]
  · simp [needToCopy, fileExistsFS, hd, mtimeFS, hs, heq]

open Gsync in
/-- Witness for C2 at concrete inputs: an absent destination forces a copy;
equal whole-second mtimes (1.2s vs 1.7s) suppress it. -/
theorem C2_needToCopy_mtime_rule_witness :
    needToCopy { files := [], mkdirFails := [], writeFails := [], setMtimeFails := [], classifyFails := [] }
      { files := [], mkdirFails := [], writeFails := [], setMtimeFails := [], classifyFails := [] }
      (str "/s/f") (str "dest/f") = Except.ok true ∧
    needToCopy
      { files := [(str "/s/f",
          { kind := FKind.regular, mtimeNs := 1200000000, content := 1, readable := true })],
        mkdirFails := [], writeFails := [], setMtimeFails := [], classifyFails := [] }
      { files := [(str "dest/f",
          { kind := FKind.regular, mtimeNs := 1700000000, content := 1, readable := true })],
        mkdirFails := [], writeFails := [], setMtimeFails := [], classifyFails := [] }
      (str "/s/f") (str "dest/f") = Except.ok false :=
  ⟨C2_needToCopy_mtime_rule.1 _ _ _ _ (by decide),
   C2_needToCopy_mtime_rule.2.2 _ _ _ _
     { kind := FKind.regular, mtimeNs := 1200000000, content := 1, readable := true }
     { kind := FKind.regular, mtimeNs := 1700000000, content := 1, readable := true }
     (by decide) (by decide) (by decide)⟩

namespace Gsync

/-- A proper extension of a string is strictly greater in byte-wise
lexicographic order: `goLE (d ++ c :: r) d = false`. -/
theorem goLE_extension_false (d : GoStr) (c : Char) (r : GoStr) :
    goLE (d ++ c :: r) d = false := by
  induction d with
  | nil => rfl
  | cons a d' ih => simpa [goLE] using ih

end Gsync

open Gsync in
/-- C3: for every entry set, sorting it lexicographically (as `sync` does via
`sort.Strings`) places every directory path strictly before every path of
that directory's descendants — any occurrence of a directory path `d`
appears at a strictly smaller index than any occurrence of a descendant
path `d ++ "/" ++ r`. -/
theorem C3_sort_dirs_before_descendants
    (l : List GoStr) (d r : GoStr) (i j : Fin (sortStrings l).length)
    (hd : (sortStrings l).get i = d) (hx : (sortStrings l).get j = d ++ '/' :: r) :
    i < j := by
  by_contra hij
  push_neg at hij
  rcases lt_or_eq_of_le hij with hlt | heq
  · have hs : List.Sorted strLe (sortStrings l) := List.sorted_insertionSort strLe l
    have hrel := hs.rel_get_of_lt hlt
    rw [hx, hd] at hrel
    simp [strLe, goLE_extension_false] at hrel
  · subst heq
    rw [hd] at hx
    have := congrArg List.length hx
    simp at this

open Gsync in
/-- Witness for C3 at a concrete entry set: sorting ["/d/b", "/d"] puts the
directory "/d" (index 0) strictly before its descendant "/d/b" (index 1). -/
theorem C3_sort_dirs_before_descendants_witness :
    (⟨0, by decide⟩ : Fin (sortStrings [str "/d/b", str "/d"]).length) < ⟨1, by decide⟩ :=
  C3_sort_dirs_before_descendants [str "/d/b", str "/d"] (str "/d") ['b'] _ _
    (by decide) (by decide)

namespace Gsync

/-- The pattern loop answers true iff some configured pattern matches the
basename, provided no pattern is malformed. -/
theorem matchFirst_ok_true_iff (pats : List GoStr) (fname : GoStr)
    (h : ∀ pat ∈ pats, goMatch pat fname ≠ Except.error ()) :
    (matchFirst pats fname = Except.ok true ↔
      ∃ pat ∈ pats, goMatch pat fname = Except.ok true) := by
  induction pats with
  | nil => simp [matchFirst]
  | cons pat rest ih =>
    have hpat := h pat (List.mem_cons_self _ _)
    simp only [matchFirst]
    cases hm : goMatch pat fname with
    | error e =>
      cases e
      exact absurd hm hpat
    | ok b =>
      cases b with
      | true =>
        simp only [true_iff]
        exact ⟨pat, List.mem_cons_self _ _, hm⟩
      | false =>
        rw [ih (fun q hq => h q (List.mem_cons_of_mem _ hq))]
        constructor
        · rintro ⟨q, hq, hqm⟩
          exact ⟨q, List.mem_cons_of_mem _ hq, hqm⟩
        · rintro ⟨q, hq, hqm⟩
          rcases List.mem_cons.mp hq with rfl | hq'
          · rw [hm] at hqm
            simp at hqm
          · exact ⟨q, hq', hqm⟩

end Gsync

open Gsync in
/-- C8: `excluded` matches only the path's final segment (basename) against
each pattern in configured order, returning true on the first match and
false if none match; the pattern `*.tmp` excludes `/a/b/c.tmp` but not
`/a/b.tmp/c`, and matching never considers the full path (two paths with the
same basename are treated identically). -/
theorem C8_excluded_basename_only :
    (∀ pats p q, pathBase p = pathBase q → excluded pats p = excluded pats q) ∧
    (∀ pats p, (∀ pat ∈ pats, goMatch pat (pathBase p) ≠ Except.error ()) →
      (excluded pats p = Except.ok true ↔
        ∃ pat ∈ pats, goMatch pat (pathBase p) = Except.ok true)) ∧
    excluded [str "*.tmp"] (str "/a/b/c.tmp") = Except.ok true ∧
    excluded [str "*.tmp"] (str "/a/b.tmp/c") = Except.ok false := by
  refine ⟨fun pats p q h => ?_, fun pats p h => matchFirst_ok_true_iff pats (pathBase p) h,
    by decide, by decide⟩
  simp [excluded, h]

open Gsync in
/-- Witness for C8 at concrete inputs: two paths sharing the basename
"c.tmp" are treated identically, and with the single valid pattern `*.tmp`
the exclusion of "/a/c.tmp" is equivalent to a matching pattern existing. -/
theorem C8_excluded_basename_only_witness :
    excluded [str "*.tmp"] (str "/x/c.tmp") = excluded [str "*.tmp"] (str "/y/z/c.tmp") ∧
    (excluded [str "*.tmp"] (str "/a/c.tmp") = Except.ok true ↔
      ∃ pat ∈ [str "*.tmp"], goMatch pat (pathBase (str "/a/c.tmp")) = Except.ok true) :=
  ⟨C8_excluded_basename_only.1 [str "*.tmp"] _ _ (by decide),
   C8_excluded_basename_only.2.1 [str "*.tmp"] (str "/a/c.tmp") (by decide)⟩

open Gsync in
/-- C9 counterexample: the claim says `FileExists` returns an error rather
than `false` when the underlying stat fails for a reason other than
non-existence; in the code (`local.go` lines 234-240) a non-not-found stat
failure yields `false` with a nil error. -/
theorem C9_counterexample_fileExists_swallow :
    localFileExists StatOutcome.otherErr = Except.ok false := by decide

open Gsync in
/-- C9 (amended): `IsDir` and `IsRegular` distinguish ordinary non-existence
(`false` with nil error) from other stat failures (returned as errors), but
`FileExists` reports every stat failure — non-existence or not — as plain
non-existence (`false` with nil error) and never returns an error. -/
theorem C9_vfs_not_found_vs_failure :
    localIsDir StatOutcome.notExist = Except.ok false ∧
    localIsDir StatOutcome.otherErr = Except.error () ∧
    localIsDir (StatOutcome.found FKind.dir) = Except.ok true ∧
    localIsRegular StatOutcome.notExist = Except.ok false ∧
    localIsRegular StatOutcome.otherErr = Except.error () ∧
    localIsRegular (StatOutcome.found FKind.regular) = Except.ok true ∧
    localFileExists StatOutcome.notExist = Except.ok false ∧
    localFileExists StatOutcome.otherErr = Except.ok false ∧
    localFileExists (StatOutcome.found FKind.regular) = Except.ok true := by decide

open Gsync in
/-- C10: `destPath` is total exactly when the normalized segment list of the
source path is at least as long as that of the source root (otherwise the Go
slice `sfile[len(sdir):]` is out of range — a panic, embedded as `none`);
e.g. source root "/a/b" with source path "/a" panics.  Every enumerated
entry lies under the source root (the root is a string prefix of it), and a
string prefix never has more normalized segments, so every call site inside
`sync` satisfies the precondition. -/
theorem C10_destPath_precondition :
    (∀ srcdir dstdir srcfile, (destPath srcdir dstdir srcfile).isSome = true ↔
      (normSegs srcdir).length ≤ (normSegs srcfile).length) ∧
    (∀ srcroot dstdir e, srcroot <+: e → (destPath srcroot dstdir e).isSome = true) ∧
    (∀ sfs root e, e ∈ fileTreeFS sfs root → root <+: e) ∧
    destPath (str "/a/b") (str "/dest") (str "/a") = none := by
  refine ⟨destPath_isSome_iff, fun sr dd e h => ?_, fun sfs root e h => ?_, by decide⟩
  · rw [destPath_isSome_iff]
    exact normSegs_length_le_of_prefix _ _ h
  · simp only [fileTreeFS, sortStrings] at h
    have h1 := (List.mem_insertionSort strLe).mp h
    have h2 := List.mem_dedup.mp h1
    have h3 := List.mem_filter.mp h2
    simpa using h3.2

open Gsync in
/-- Witness for C10 at concrete inputs: "/s" is a prefix of "/s/a", so
`destPath` is defined there; and for a one-file model filesystem the
enumerated entry "/s/a" has the root "/s" as a prefix. -/
theorem C10_destPath_precondition_witness :
    (destPath (str "/s") (str "/dest") (str "/s/a")).isSome = true ∧
    (str "/s") <+: (str "/s/a") :=
  ⟨C10_destPath_precondition.2.1 (str "/s") (str "/dest") (str "/s/a") (by decide),
   C10_destPath_precondition.2.2.1
     { files := [(str "/s/a",
         { kind := FKind.regular, mtimeNs := 0, content := 0, readable := true })],
       mkdirFails := [], writeFails := [], setMtimeFails := [], classifyFails := [] }
     (str "/s") (str "/s/a") (by decide)⟩

namespace Gsync

/-- A successful `Mtime` call returns the stored mtime. -/
theorem mtimeD_of_ok (fs : ModelFS) (p : GoStr) (mt : Int)
    (h : mtimeFS fs p = Except.ok mt) : mtimeD fs p = mt := by
  unfold mtimeFS at h
  cases hf : findNode fs p with
  | none =>
    rw [hf] at h
    exact Except.noConfusion h
  | some n =>
    rw [hf] at h
    injection h with h'
    simp [mtimeD, hf, h']

/-- The restoration loop, when it succeeds, emits exactly one `SetMtime`
event per processed pair, in reverse index order. -/
theorem restFrom_events (sfs : ModelFS) (pairs : List (GoStr × GoStr)) :
    ∀ (n : Nat) (dfs : ModelFS) (evs : List Event), n ≤ pairs.length →
      (restFrom sfs pairs dfs evs n).2 = none →
      (restFrom sfs pairs dfs evs n).1.2 =
        evs ++ ((pairs.take n).reverse.map
          (fun pr => Event.setMtime pr.2 (mtimeD sfs pr.1))) := by
  intro n
  induction n with
  | zero =>
    intro dfs evs _ _
    simp [restFrom]
  | succ m ih =>
    intro dfs evs hle hok
    have hm' : m < pairs.length := hle
    obtain ⟨pr, hpr⟩ : ∃ pr, pairs.get? m = some pr := by
      rw [List.get?_eq_get hm']
      exact ⟨_, rfl⟩
    simp only [restFrom, hpr] at hok ⊢
    split at hok
    · simp at hok
    · rename_i mt hmt
      split at hok
      · simp at hok
      · rename_i dfs' hs
        have hih := ih dfs' _ (le_of_lt hm') hok
        have hpr' : pairs[m]? = some pr := by
          rw [← List.get?_eq_getElem?]
          exact hpr
        rw [hih, List.take_succ, hpr']
        simp [mtimeD_of_ok _ _ _ hmt]

/-- In dry-run mode a loop step neither mutates the destination filesystem
nor emits any mutation event. -/
theorem syncStep_dry_no_mutation (o : Opts) (sp dd : GoStr) (sfs : ModelFS)
    (st : LoopSt) (src : GoStr) (st' : LoopSt)
    (hdry : o.dryrun = true) (h : syncStep o sp dd sfs st src = Except.ok st') :
    st'.dfs = st.dfs ∧ st'.evs = st.evs := by
  unfold syncStep at h
  rw [hdry] at h
  simp only [if_true] at h
  repeat' split at h
  all_goals first
    | exact Except.noConfusion h
    | (injection h with h'
       subst h'
       exact ⟨rfl, rfl⟩)

/-- In dry-run mode the whole loop neither mutates the destination
filesystem nor emits any mutation event. -/
theorem syncLoop_dry_no_mutation (o : Opts) (sp dd : GoStr) (sfs : ModelFS)
    (hdry : o.dryrun = true) :
    ∀ (entries : List GoStr) (st : LoopSt),
      (syncLoop o sp dd sfs st entries).1.dfs = st.dfs ∧
      (syncLoop o sp dd sfs st entries).1.evs = st.evs := by
  intro entries
  induction entries with
  | nil =>
    intro st
    exact ⟨rfl, rfl⟩
  | cons e rest ih =>
    intro st
    simp only [syncLoop]
    cases hstep : syncStep o sp dd sfs st e with
    | error err => exact ⟨rfl, rfl⟩
    | ok st' =>
      have h2 := syncStep_dry_no_mutation o sp dd sfs st e st' hdry hstep
      have h3 := ih st'
      exact ⟨h3.1.trans h2.1, h3.2.trans h2.2⟩

/-- A dry run issues no mutating VFS call at all and leaves the destination
state untouched (the restoration pass is skipped entirely). -/
theorem sync_dry_no_mutation (o : Opts) (sp dd : GoStr) (sfs dfs0 : ModelFS)
    (hdry : o.dryrun = true) :
    (sync o sp dd sfs dfs0).evs = [] ∧ (sync o sp dd sfs dfs0).dfs = dfs0 := by
  unfold sync
  cases h1 : fileExistsFS dfs0 dd with
  | false => simp [h1]
  | true =>
    cases hop : isDirOp dfs0 dd with
    | error e => simp [h1, hop]
    | ok b =>
      cases b with
      | false => simp [h1, hop]
      | true =>
        cases hop2 : isDirOp sfs sp with
        | error e => simp [h1, hop, hop2]
        | ok c =>
          simp only [h1, hop, hop2, Bool.not_true, Bool.false_eq_true, if_false]
          rcases hres : syncLoop o sp dd sfs
              { dfs := dfs0, dirpairs := [], decs := [], evs := [] }
              (entriesOf sfs sp) with ⟨st, oe⟩
          have hd := syncLoop_dry_no_mutation o sp dd sfs hdry (entriesOf sfs sp)
            { dfs := dfs0, dirpairs := [], decs := [], evs := [] }
          rw [hres] at hd
          cases oe with
          | some e => exact ⟨hd.2, hd.1⟩
          | none =>
            simp only [hdry, if_true]
            exact ⟨hd.2, hd.1⟩

end Gsync

open Gsync in
/-- C4: the restoration pass visits the recorded DirectoryPairs in exact
reverse of their recording order, setting each destination directory's mtime
to its source counterpart's stored mtime, and the pass is skipped entirely
in dry-run mode (a dry run emits no mutation events at all); on a
successful real run the event trace ends with exactly the reverse-order
restoration events for the recorded pairs. -/
theorem C4_restoration_reverse_order :
    (∀ sfs pairs dfs, (restFrom sfs pairs dfs [] pairs.length).2 = none →
      (restFrom sfs pairs dfs [] pairs.length).1.2 =
        pairs.reverse.map (fun pr => Event.setMtime pr.2 (mtimeD sfs pr.1))) ∧
    (∀ o sp dd sfs dfs0, o.dryrun = true → (sync o sp dd sfs dfs0).evs = []) ∧
    (∀ o sp dd sfs dfs0, o.dryrun = false → (sync o sp dd sfs dfs0).err = none →
      ∃ pre, (sync o sp dd sfs dfs0).evs = pre ++
        (sync o sp dd sfs dfs0).dirpairs.reverse.map
          (fun pr => Event.setMtime pr.2 (mtimeD sfs pr.1))) := by
  refine ⟨fun sfs pairs dfs hok => ?_,
    fun o sp dd sfs dfs0 hdry => (sync_dry_no_mutation o sp dd sfs dfs0 hdry).1,
    fun o sp dd sfs dfs0 hdry hok => ?_⟩
  · have := restFrom_events sfs pairs pairs.length dfs [] (le_refl _) hok
    simpa using this
  · revert hok
    unfold sync
    cases h1 : fileExistsFS dfs0 dd with
    | false =>
      intro hok
      simp at hok
    | true =>
      cases hop : isDirOp dfs0 dd with
      | error e =>
        intro hok
        simp at hok
      | ok b =>
        cases b with
        | false =>
          intro hok
          simp at hok
        | true =>
          cases hop2 : isDirOp sfs sp with
          | error e =>
            intro hok
            simp at hok
          | ok c =>
            simp only [Bool.not_true, Bool.false_eq_true, if_false]
            rcases hres : syncLoop o sp dd sfs
                { dfs := dfs0, dirpairs := [], decs := [], evs := [] }
                (entriesOf sfs sp) with ⟨st, oe⟩
            cases oe with
            | some e =>
              intro hok
              simp at hok
            | none =>
              rw [hdry]
              simp only [Bool.false_eq_true, if_false]
              rcases hrest : restFrom sfs st.dirpairs st.dfs [] st.dirpairs.length
                with ⟨⟨dfs', revs⟩, oe'⟩
              intro hok
              simp only [SyncResult.err] at hok
              have hoe' : oe' = none := hok
              subst hoe'
              have hev := restFrom_events sfs st.dirpairs st.dirpairs.length st.dfs []
                (le_refl _) (by rw [hrest])
              rw [hrest] at hev
              simp only [SyncResult.evs, SyncResult.dirpairs]
              refine ⟨st.evs, ?_⟩
              simp only [List.take_length] at hev
              simp [hev]

open Gsync in
/-- Witness for C4 at concrete inputs: a successful two-step restoration
emits the pairs' SetMtime events in reverse recording order; a dry run over
a tiny state emits no events; and a successful trivial real run's event
trace ends with the (empty) reverse-order restoration suffix. -/
theorem C4_restoration_reverse_order_witness :
    (restFrom
        { files := [(str "a", { kind := FKind.dir, mtimeNs := 5, content := 0, readable := true })],
          mkdirFails := [], writeFails := [], setMtimeFails := [], classifyFails := [] }
        [(str "a", str "b")]
        { files := [(str "b", { kind := FKind.dir, mtimeNs := 0, content := 0, readable := true })],
          mkdirFails := [], writeFails := [], setMtimeFails := [], classifyFails := [] }
        [] [(str "a", str "b")].length).1.2 =
      [(str "a", str "b")].reverse.map
        (fun pr => Event.setMtime pr.2 (mtimeD
          { files := [(str "a",
              { kind := FKind.dir, mtimeNs := 5, content := 0, readable := true })],
            mkdirFails := [], writeFails := [], setMtimeFails := [], classifyFails := [] } pr.1)) ∧
    (sync { dryrun := true, exclude := [] } (str "x") (str "y")
        { files := [], mkdirFails := [], writeFails := [], setMtimeFails := [], classifyFails := [] }
        { files := [], mkdirFails := [], writeFails := [], setMtimeFails := [], classifyFails := [] }).evs = [] ∧
    (∃ pre, (sync { dryrun := false, exclude := [] } (str "x") (str "y")
        { files := [], mkdirFails := [], writeFails := [], setMtimeFails := [], classifyFails := [] }
        { files := [(str "y", { kind := FKind.dir, mtimeNs := 0, content := 0, readable := true })],
          mkdirFails := [], writeFails := [], setMtimeFails := [], classifyFails := [] }).evs = pre ++
      (sync { dryrun := false, exclude := [] } (str "x") (str "y")
        { files := [], mkdirFails := [], writeFails := [], setMtimeFails := [], classifyFails := [] }
        { files := [(str "y", { kind := FKind.dir, mtimeNs := 0, content := 0, readable := true })],
          mkdirFails := [], writeFails := [], setMtimeFails := [], classifyFails := [] }).dirpairs.reverse.map
        (fun pr => Event.setMtime pr.2 (mtimeD
          { files := [], mkdirFails := [], writeFails := [], setMtimeFails := [], classifyFails := [] } pr.1))) :=
  ⟨C4_restoration_reverse_order.1 _ _ _ (by decide),
   C4_restoration_reverse_order.2.1 _ _ _ _ _ rfl,
   C4_restoration_reverse_order.2.2 _ _ _ _ _ rfl (by decide)⟩

open Gsync in
/-- C5: failure asymmetry — a failure to read an individual source file
during the copy step is soft (the engine records a warning, skips the entry,
and continues the loop on the remaining entries, with no state change and no
error), whereas classification (`IsDir`/`IsRegular` stat failure),
directory-creation, write, mtime-restoration and precondition failures
abort the run immediately, propagating the error. -/
theorem C5_failure_asymmetry :
    (∀ (o : Opts) (sp dd : GoStr) (sfs : ModelFS) (st : LoopSt) (src : GoStr)
        (rest : List GoStr) (dst : GoStr),
      o.dryrun = false →
      excluded o.exclude src = Except.ok false →
      destPath sp dd src = some dst →
      src ∉ sfs.classifyFails →
      isDirFS sfs src = false →
      isRegularFS sfs src = true →
      needToCopy sfs st.dfs src dst = Except.ok true →
      readFromFileFS sfs src = Except.error () →
      syncLoop o sp dd sfs st (src :: rest) =
        syncLoop o sp dd sfs { st with decs := st.decs ++ [Decision.warnRead src] } rest) ∧
    (∀ (o : Opts) (sp dd : GoStr) (sfs : ModelFS) (st : LoopSt) (src : GoStr)
        (rest : List GoStr) (dst : GoStr),
      excluded o.exclude src = Except.ok false →
      destPath sp dd src = some dst →
      src ∈ sfs.classifyFails →
      syncLoop o sp dd sfs st (src :: rest) =
        (st, some (SyncErr.classifyErr src))) ∧
    (∀ (o : Opts) (sp dd : GoStr) (sfs : ModelFS) (st : LoopSt) (src : GoStr)
        (rest : List GoStr) (dst : GoStr) (e : SyncErr),
      o.dryrun = false →
      excluded o.exclude src = Except.ok false →
      destPath sp dd src = some dst →
      src ∉ sfs.classifyFails →
      isDirFS sfs src = true →
      fileExistsFS st.dfs dst = false →
      mkdirFS st.dfs dst = Except.error e →
      syncLoop o sp dd sfs st (src :: rest) = (st, some e)) ∧
    (∀ (o : Opts) (sp dd : GoStr) (sfs : ModelFS) (st : LoopSt) (src : GoStr)
        (rest : List GoStr) (dst : GoStr) (content : Nat) (e : SyncErr),
      o.dryrun = false →
      excluded o.exclude src = Except.ok false →
      destPath sp dd src = some dst →
      src ∉ sfs.classifyFails →
      isDirFS sfs src = false →
      isRegularFS sfs src = true →
      needToCopy sfs st.dfs src dst = Except.ok true →
      readFromFileFS sfs src = Except.ok content →
      writeToFileFS st.dfs dst content = Except.error e →
      syncLoop o sp dd sfs st (src :: rest) = (st, some e)) ∧
    (∀ (sfs : ModelFS) (pairs : List (GoStr × GoStr)) (dfs : ModelFS)
        (evs : List Event) (ix : Nat) (pr : GoStr × GoStr) (mt : Int) (e : SyncErr),
      pairs.get? ix = some pr →
      mtimeFS sfs pr.1 = Except.ok mt →
      setMtimeFS dfs pr.2 mt = Except.error e →
      restFrom sfs pairs dfs evs (ix + 1) = ((dfs, evs), some e)) ∧
    (∀ (o : Opts) (sp dd : GoStr) (sfs dfs0 : ModelFS),
      fileExistsFS dfs0 dd = false →
      sync o sp dd sfs dfs0 =
        { err := some (SyncErr.dstMissing dd), dfs := dfs0, dirpairs := [],
          decs := [], evs := [] }) := by
  refine ⟨?_, ?_, ?_, ?_, ?_, ?_⟩
  · intro o sp dd sfs st src rest dst hdry hexc hdp hcf hdir hreg hneed hread
    have hstep : syncStep o sp dd sfs st src =
        Except.ok { st with decs := st.decs ++ [Decision.warnRead src] } := by
      simp [syncStep, hexc, hdp, isDirOp_ok _ _ hcf, isRegularOp_ok _ _ hcf,
        hdir, hreg, hneed, hread, hdry]
    simp [syncLoop, hstep]
  · intro o sp dd sfs st src rest dst hexc hdp hcf
    have hstep : syncStep o sp dd sfs st src =
        Except.error (SyncErr.classifyErr src) := by
      simp [syncStep, hexc, hdp, isDirOp_err _ _ hcf]
    simp [syncLoop, hstep]
  · intro o sp dd sfs st src rest dst e hdry hexc hdp hcf hdir hex hmk
    have hstep : syncStep o sp dd sfs st src = Except.error e := by
      simp [syncStep, hexc, hdp, isDirOp_ok _ _ hcf, isRegularOp_ok _ _ hcf,
        hdir, hex, hmk, hdry]
    simp [syncLoop, hstep]
  · intro o sp dd sfs st src rest dst content e hdry hexc hdp hcf hdir hreg hneed hread hwr
    have hstep : syncStep o sp dd sfs st src = Except.error e := by
      simp [syncStep, hexc, hdp, isDirOp_ok _ _ hcf, isRegularOp_ok _ _ hcf,
        hdir, hreg, hneed, hread, hwr, hdry]
    simp [syncLoop, hstep]
  · intro sfs pairs dfs evs ix pr mt e hget hmt hset
    rw [List.get?_eq_getElem?] at hget
    simp [restFrom, hget, hmt, hset]
  · intro o sp dd sfs dfs0 hex
    simp [sync, hex]

open Gsync in
/-- Witness for C5 at concrete inputs: an unreadable source file is skipped
with a warning and the loop continues; a failing Mkdir, a failing write, a
failing restoration SetMtime, and a missing destination root each abort
immediately with the corresponding error. -/
theorem C5_failure_asymmetry_witness :
    (syncLoop { dryrun := false, exclude := [] } (str "/s") (str "d")
        { files := [(str "/s/f",
            { kind := FKind.regular, mtimeNs := 5, content := 7, readable := false })],
          mkdirFails := [], writeFails := [], setMtimeFails := [], classifyFails := [] }
        { dfs := { files := [], mkdirFails := [], writeFails := [], setMtimeFails := [], classifyFails := [] },
          dirpairs := [], decs := [], evs := [] }
        [str "/s/f"] =
      syncLoop { dryrun := false, exclude := [] } (str "/s") (str "d")
        { files := [(str "/s/f",
            { kind := FKind.regular, mtimeNs := 5, content := 7, readable := false })],
          mkdirFails := [], writeFails := [], setMtimeFails := [], classifyFails := [] }
        { dfs := { files := [], mkdirFails := [], writeFails := [], setMtimeFails := [], classifyFails := [] },
          dirpairs := [], decs := [] ++ [Decision.warnRead (str "/s/f")], evs := [] }
        []) ∧
    (syncLoop { dryrun := false, exclude := [] } (str "/s") (str "d")
        { files := [(str "/s/f",
            { kind := FKind.regular, mtimeNs := 5, content := 7, readable := true })],
          mkdirFails := [], writeFails := [], setMtimeFails := [],
          classifyFails := [str "/s/f"] }
        { dfs := { files := [], mkdirFails := [], writeFails := [], setMtimeFails := [], classifyFails := [] },
          dirpairs := [], decs := [], evs := [] }
        [str "/s/f"] =
      ({ dfs := { files := [], mkdirFails := [], writeFails := [], setMtimeFails := [], classifyFails := [] },
         dirpairs := [], decs := [], evs := [] },
       some (SyncErr.classifyErr (str "/s/f")))) ∧
    (syncLoop { dryrun := false, exclude := [] } (str "/s") (str "d")
        { files := [(str "/s",
            { kind := FKind.dir, mtimeNs := 5, content := 0, readable := true })],
          mkdirFails := [], writeFails := [], setMtimeFails := [], classifyFails := [] }
        { dfs := { files := [], mkdirFails := [str "d/s"], writeFails := [],
                   setMtimeFails := [], classifyFails := [] },
          dirpairs := [], decs := [], evs := [] }
        [str "/s"] =
      ({ dfs := { files := [], mkdirFails := [str "d/s"], writeFails := [],
                  setMtimeFails := [], classifyFails := [] },
         dirpairs := [], decs := [], evs := [] },
       some (SyncErr.mkdirErr (str "d/s")))) ∧
    (syncLoop { dryrun := false, exclude := [] } (str "/s") (str "d")
        { files := [(str "/s/f",
            { kind := FKind.regular, mtimeNs := 5, content := 7, readable := true })],
          mkdirFails := [], writeFails := [], setMtimeFails := [], classifyFails := [] }
        { dfs := { files := [], mkdirFails := [], writeFails := [str "d/s/f"],
                   setMtimeFails := [], classifyFails := [] },
          dirpairs := [], decs := [], evs := [] }
        [str "/s/f"] =
      ({ dfs := { files := [], mkdirFails := [], writeFails := [str "d/s/f"],
                  setMtimeFails := [], classifyFails := [] },
         dirpairs := [], decs := [], evs := [] },
       some (SyncErr.writeErr (str "d/s/f")))) ∧
    (restFrom
        { files := [(str "a", { kind := FKind.dir, mtimeNs := 5, content := 0, readable := true })],
          mkdirFails := [], writeFails := [], setMtimeFails := [], classifyFails := [] }
        [(str "a", str "b")]
        { files := [(str "b", { kind := FKind.dir, mtimeNs := 0, content := 0, readable := true })],
          mkdirFails := [], writeFails := [], setMtimeFails := [str "b"], classifyFails := [] }
        [] (0 + 1) =
      (({ files := [(str "b", { kind := FKind.dir, mtimeNs := 0, content := 0, readable := true })],
          mkdirFails := [], writeFails := [], setMtimeFails := [str "b"], classifyFails := [] }, []),
       some (SyncErr.setMtimeErr (str "b")))) ∧
    (sync { dryrun := false, exclude := [] } (str "x") (str "y")
        { files := [], mkdirFails := [], writeFails := [], setMtimeFails := [], classifyFails := [] }
        { files := [], mkdirFails := [], writeFails := [], setMtimeFails := [], classifyFails := [] } =
      { err := some (SyncErr.dstMissing (str "y")),
        dfs := { files := [], mkdirFails := [], writeFails := [], setMtimeFails := [], classifyFails := [] },
        dirpairs := [], decs := [], evs := [] }) :=
  ⟨C5_failure_asymmetry.1 _ _ _ _ _ _ _ (str "d/s/f") (by decide) (by decide) (by decide)
     (by decide) (by decide) (by decide) (by decide) (by decide),
   C5_failure_asymmetry.2.1 _ _ _ _ _ _ _ (str "d/s/f")
     (by decide) (by decide) (by decide),
   C5_failure_asymmetry.2.2.1 _ _ _ _ _ _ _ (str "d/s") (SyncErr.mkdirErr (str "d/s"))
     (by decide) (by decide) (by decide) (by decide) (by decide) (by decide) (by decide),
   C5_failure_asymmetry.2.2.2.1 _ _ _ _ _ _ _ (str "d/s/f") 7
     (SyncErr.writeErr (str "d/s/f")) (by decide) (by decide) (by decide)
     (by decide) (by decide) (by decide) (by decide) (by decide) (by decide),
   C5_failure_asymmetry.2.2.2.2.1 _ _ _ _ 0 (str "a", str "b") 5
     (SyncErr.setMtimeErr (str "b")) (by decide) (by decide) (by decide),
   C5_failure_asymmetry.2.2.2.2.2 _ _ _ _ _ (by decide)⟩

namespace Gsync

/-- A successful `Mkdir` stores a fresh directory node. -/
theorem mkdirFS_ok (fs : ModelFS) (p : GoStr) (fs' : ModelFS)
    (h : mkdirFS fs p = Except.ok fs') :
    fs' = setNode fs p { kind := FKind.dir, mtimeNs := 0, content := 0, readable := true } := by
  unfold mkdirFS at h
  split at h
  · exact Except.noConfusion h
  · injection h with h'
    exact h'.symm

/-- A successful `WriteToFile` stores a fresh regular node with the written
content. -/
theorem writeToFileFS_ok (fs : ModelFS) (p : GoStr) (content : Nat) (fs' : ModelFS)
    (h : writeToFileFS fs p content = Except.ok fs') :
    fs' = setNode fs p
      { kind := FKind.regular, mtimeNs := 0, content := content, readable := true } := by
  unfold writeToFileFS at h
  split at h
  · exact Except.noConfusion h
  · injection h with h'
    exact h'.symm

/-- A successful `SetMtime` updates the mtime of the stored node in place. -/
theorem setMtimeFS_ok (fs : ModelFS) (p : GoStr) (t : Int) (fs' : ModelFS)
    (h : setMtimeFS fs p t = Except.ok fs') :
    ∃ n, findNode fs p = some n ∧ fs' = setNode fs p { n with mtimeNs := t } := by
  unfold setMtimeFS at h
  split at h
  · exact Except.noConfusion h
  · split at h
    · rename_i n hn
      injection h with h'
      exact ⟨n, hn, h'.symm⟩
    · exact Except.noConfusion h

/-- One successful loop step only mutates the destination at the entry's own
destination path, preserves the injected fault sets, and never removes a
node. -/
theorem syncStep_state (o : Opts) (sp dd : GoStr) (sfs : ModelFS) (st : LoopSt)
    (src : GoStr) (st' : LoopSt)
    (h : syncStep o sp dd sfs st src = Except.ok st') :
    (∀ p, (∀ dst, destPath sp dd src = some dst → dst ≠ p) →
      findNode st'.dfs p = findNode st.dfs p) ∧
    st'.dfs.mkdirFails = st.dfs.mkdirFails ∧
    st'.dfs.writeFails = st.dfs.writeFails ∧
    st'.dfs.setMtimeFails = st.dfs.setMtimeFails ∧
    st'.dfs.classifyFails = st.dfs.classifyFails ∧
    (∀ p, (findNode st.dfs p).isSome = true → (findNode st'.dfs p).isSome = true) := by
  unfold syncStep at h
  split at h
  · exact Except.noConfusion h
  · injection h with h'
    subst h'
    exact ⟨fun _ _ => rfl, rfl, rfl, rfl, rfl, fun _ hp => hp⟩
  · split at h
    · exact Except.noConfusion h
    · rename_i dst hdp
      split at h
      · exact Except.noConfusion h
      · split at h
        · exact Except.noConfusion h
        · split at h
          · split at h
            · injection h with h'
              subst h'
              exact ⟨fun _ _ => rfl, rfl, rfl, rfl, rfl, fun _ hp => hp⟩
            · split at h
              · injection h with h'
                subst h'
                exact ⟨fun _ _ => rfl, rfl, rfl, rfl, rfl, fun _ hp => hp⟩
              · split at h
                · exact Except.noConfusion h
                · rename_i dfs' hmk
                  injection h with h'
                  subst h'
                  have hdfs := mkdirFS_ok st.dfs dst dfs' hmk
                  subst hdfs
                  refine ⟨fun p hp => ?_, rfl, rfl, rfl, rfl, fun p hp => ?_⟩
                  · exact findNode_setNode_other st.dfs dst p _ (Ne.symm (hp dst hdp))
                  · by_cases hpd : p = dst
                    · subst hpd
                      rw [findNode_setNode_same]
                      rfl
                    · rw [findNode_setNode_other st.dfs dst p _ (by simpa using hpd)]
                      exact hp
          · split at h
            · split at h
              · exact Except.noConfusion h
              · injection h with h'
                subst h'
                exact ⟨fun _ _ => rfl, rfl, rfl, rfl, rfl, fun _ hp => hp⟩
              · split at h
                · injection h with h'
                  subst h'
                  exact ⟨fun _ _ => rfl, rfl, rfl, rfl, rfl, fun _ hp => hp⟩
                · split at h
                  · injection h with h'
                    subst h'
                    exact ⟨fun _ _ => rfl, rfl, rfl, rfl, rfl, fun _ hp => hp⟩
                  · rename_i content hread
                    split at h
                    · exact Except.noConfusion h
                    · rename_i dfs1 hwrite
                      split at h
                      · exact Except.noConfusion h
                      · rename_i mt hmt
                        split at h
                        · exact Except.noConfusion h
                        · rename_i dfs2 hsetm
                          injection h with h'
                          subst h'
                          have hdfs1 := writeToFileFS_ok st.dfs dst content dfs1 hwrite
                          obtain ⟨n, hn, hdfs2⟩ := setMtimeFS_ok dfs1 dst mt dfs2 hsetm
                          subst hdfs1
                          subst hdfs2
                          refine ⟨fun p hp => ?_, rfl, rfl, rfl, rfl, fun p hp => ?_⟩
                          · have hne := Ne.symm (hp dst hdp)
                            rw [findNode_setNode_other _ dst p _ hne,
                              findNode_setNode_other _ dst p _ hne]
                          · by_cases hpd : p = dst
                            · subst hpd
                              rw [findNode_setNode_same]
                              rfl
                            · rw [findNode_setNode_other _ dst p _ (by simpa using hpd),
                                findNode_setNode_other _ dst p _ (by simpa using hpd)]
                              exact hp
            · injection h with h'
              subst h'
              exact ⟨fun _ _ => rfl, rfl, rfl, rfl, rfl, fun _ hp => hp⟩

end Gsync

namespace Gsync

/-- The loop only mutates the destination at destination paths of its
entries, preserves the fault sets, and never removes a node (also when it
aborts early). -/
theorem syncLoop_state (o : Opts) (sp dd : GoStr) (sfs : ModelFS) :
    ∀ (entries : List GoStr) (st : LoopSt),
      (∀ p, (∀ e ∈ entries, ∀ d, destPath sp dd e = some d → d ≠ p) →
        findNode (syncLoop o sp dd sfs st entries).1.dfs p = findNode st.dfs p) ∧
      (syncLoop o sp dd sfs st entries).1.dfs.mkdirFails = st.dfs.mkdirFails ∧
      (syncLoop o sp dd sfs st entries).1.dfs.writeFails = st.dfs.writeFails ∧
      (syncLoop o sp dd sfs st entries).1.dfs.setMtimeFails = st.dfs.setMtimeFails ∧
      (syncLoop o sp dd sfs st entries).1.dfs.classifyFails = st.dfs.classifyFails ∧
      (∀ p, (findNode st.dfs p).isSome = true →
        (findNode (syncLoop o sp dd sfs st entries).1.dfs p).isSome = true) := by
  intro entries
  induction entries with
  | nil =>
    intro st
    exact ⟨fun _ _ => rfl, rfl, rfl, rfl, rfl, fun _ hp => hp⟩
  | cons e rest ih =>
    intro st
    simp only [syncLoop]
    cases hstep : syncStep o sp dd sfs st e with
    | error err => exact ⟨fun _ _ => rfl, rfl, rfl, rfl, rfl, fun _ hp => hp⟩
    | ok st' =>
      have hs := syncStep_state o sp dd sfs st e st' hstep
      have hr := ih st'
      refine ⟨fun p hp => ?_, hr.2.1.trans hs.2.1, hr.2.2.1.trans hs.2.2.1,
        hr.2.2.2.1.trans hs.2.2.2.1, hr.2.2.2.2.1.trans hs.2.2.2.2.1,
        fun p hp => hr.2.2.2.2.2 p (hs.2.2.2.2.2 p hp)⟩
      rw [hr.1 p (fun e' he' d hd => hp e' (List.mem_cons_of_mem _ he') d hd)]
      exact hs.1 p (fun d hd => hp e (List.mem_cons_self _ _) d hd)

/-- Step equation: an entry whose exclusion test errors aborts the step. -/
theorem syncStep_pattern_err (o : Opts) (sp dd : GoStr) (sfs : ModelFS) (st : LoopSt)
    (src : GoStr) (e : SyncErr) (hexc : excluded o.exclude src = Except.error e) :
    syncStep o sp dd sfs st src = Except.error e := by
  simp [syncStep, hexc]

/-- Step equation: an excluded entry is skipped with a report. -/
theorem syncStep_excluded (o : Opts) (sp dd : GoStr) (sfs : ModelFS) (st : LoopSt)
    (src : GoStr) (hexc : excluded o.exclude src = Except.ok true) :
    syncStep o sp dd sfs st src =
      Except.ok { st with decs := st.decs ++ [Decision.excludedEntry src] } := by
  simp [syncStep, hexc]

/-- Step equation: an entry outside the source root makes `destPath` panic. -/
theorem syncStep_panic (o : Opts) (sp dd : GoStr) (sfs : ModelFS) (st : LoopSt)
    (src : GoStr) (hexc : excluded o.exclude src = Except.ok false)
    (hdp : destPath sp dd src = none) :
    syncStep o sp dd sfs st src = Except.error (SyncErr.destPathPanic src) := by
  simp [syncStep, hexc, hdp]

/-- Step equation: a classification stat failure at the entry aborts the
step with the classification error. -/
theorem syncStep_classify_err (o : Opts) (sp dd : GoStr) (sfs : ModelFS) (st : LoopSt)
    (src dst : GoStr) (hexc : excluded o.exclude src = Except.ok false)
    (hdp : destPath sp dd src = some dst) (hcf : src ∈ sfs.classifyFails) :
    syncStep o sp dd sfs st src = Except.error (SyncErr.classifyErr src) := by
  simp [syncStep, hexc, hdp, isDirOp_err _ _ hcf]

/-- Step equation: a directory whose destination already exists only records
the pair. -/
theorem syncStep_dir_exists (o : Opts) (sp dd : GoStr) (sfs : ModelFS) (st : LoopSt)
    (src dst : GoStr) (hexc : excluded o.exclude src = Except.ok false)
    (hdp : destPath sp dd src = some dst)
    (hcf : src ∉ sfs.classifyFails) (hdir : isDirFS sfs src = true)
    (hex : fileExistsFS st.dfs dst = true) :
    syncStep o sp dd sfs st src =
      Except.ok { st with dirpairs := st.dirpairs ++ [(src, dst)],
                          decs := st.decs ++ [Decision.dirExists dst] } := by
  simp [syncStep, hexc, hdp, isDirOp_ok _ _ hcf, isRegularOp_ok _ _ hcf, hdir, hex]

/-- Step equation: creating a missing destination directory in real mode. -/
theorem syncStep_dir_create_real (o : Opts) (sp dd : GoStr) (sfs : ModelFS) (st : LoopSt)
    (src dst : GoStr) (hdry : o.dryrun = false)
    (hexc : excluded o.exclude src = Except.ok false)
    (hdp : destPath sp dd src = some dst)
    (hcf : src ∉ sfs.classifyFails) (hdir : isDirFS sfs src = true)
    (hex : fileExistsFS st.dfs dst = false) (hmk : st.dfs.mkdirFails = []) :
    syncStep o sp dd sfs st src =
      Except.ok { dfs := setNode st.dfs dst
                    { kind := FKind.dir, mtimeNs := 0, content := 0, readable := true },
                  dirpairs := st.dirpairs ++ [(src, dst)],
                  decs := st.decs ++ [Decision.createDir dst],
                  evs := st.evs ++ [Event.mkdir dst] } := by
  have hmka : mkdirFS st.dfs dst = Except.ok (setNode st.dfs dst
      { kind := FKind.dir, mtimeNs := 0, content := 0, readable := true }) := by
    simp [mkdirFS, hmk]
  simp [syncStep, hexc, hdp, isDirOp_ok _ _ hcf, isRegularOp_ok _ _ hcf, hdir, hex, hdry, hmka]

/-- Step equation: a missing destination directory in dry-run mode is only
reported. -/
theorem syncStep_dir_create_dry (o : Opts) (sp dd : GoStr) (sfs : ModelFS) (st : LoopSt)
    (src dst : GoStr) (hdry : o.dryrun = true)
    (hexc : excluded o.exclude src = Except.ok false)
    (hdp : destPath sp dd src = some dst)
    (hcf : src ∉ sfs.classifyFails) (hdir : isDirFS sfs src = true)
    (hex : fileExistsFS st.dfs dst = false) :
    syncStep o sp dd sfs st src =
      Except.ok { st with dirpairs := st.dirpairs ++ [(src, dst)],
                          decs := st.decs ++ [Decision.createDir dst] } := by
  simp [syncStep, hexc, hdp, isDirOp_ok _ _ hcf, isRegularOp_ok _ _ hcf, hdir, hex, hdry]

/-- Step equation: a regular file that needs no copy is reported unchanged. -/
theorem syncStep_unchanged (o : Opts) (sp dd : GoStr) (sfs : ModelFS) (st : LoopSt)
    (src dst : GoStr) (hexc : excluded o.exclude src = Except.ok false)
    (hdp : destPath sp dd src = some dst)
    (hcf : src ∉ sfs.classifyFails) (hdir : isDirFS sfs src = false)
    (hreg : isRegularFS sfs src = true)
    (hneed : needToCopy sfs st.dfs src dst = Except.ok false) :
    syncStep o sp dd sfs st src =
      Except.ok { st with decs := st.decs ++ [Decision.unchanged dst] } := by
  simp [syncStep, hexc, hdp, isDirOp_ok _ _ hcf, isRegularOp_ok _ _ hcf, hdir, hreg, hneed]

/-- Step equation: a needed copy in dry-run mode is only reported. -/
theorem syncStep_copy_dry (o : Opts) (sp dd : GoStr) (sfs : ModelFS) (st : LoopSt)
    (src dst : GoStr) (hdry : o.dryrun = true)
    (hexc : excluded o.exclude src = Except.ok false)
    (hdp : destPath sp dd src = some dst)
    (hcf : src ∉ sfs.classifyFails) (hdir : isDirFS sfs src = false)
    (hreg : isRegularFS sfs src = true)
    (hneed : needToCopy sfs st.dfs src dst = Except.ok true) :
    syncStep o sp dd sfs st src =
      Except.ok { st with decs := st.decs ++ [Decision.copyFile dst] } := by
  simp [syncStep, hexc, hdp, isDirOp_ok _ _ hcf, isRegularOp_ok _ _ hcf, hdir, hreg, hneed, hdry]

/-- Step equation: a needed copy of a readable source in real mode writes
the content and then propagates the source mtime. -/
theorem syncStep_copy_real (o : Opts) (sp dd : GoStr) (sfs : ModelFS) (st : LoopSt)
    (src dst : GoStr) (sn : FNode) (hdry : o.dryrun = false)
    (hexc : excluded o.exclude src = Except.ok false)
    (hdp : destPath sp dd src = some dst)
    (hcf : src ∉ sfs.classifyFails) (hdir : isDirFS sfs src = false)
    (hreg : isRegularFS sfs src = true)
    (hneed : needToCopy sfs st.dfs src dst = Except.ok true)
    (hsn : findNode sfs src = some sn) (hrd : sn.readable = true)
    (hwr : st.dfs.writeFails = []) (hsm : st.dfs.setMtimeFails = []) :
    syncStep o sp dd sfs st src =
      Except.ok { dfs := setNode
                    (setNode st.dfs dst (FNode.mk FKind.regular 0 sn.content true)) dst
                    (FNode.mk FKind.regular sn.mtimeNs sn.content true),
                  dirpairs := st.dirpairs,
                  decs := st.decs ++ [Decision.copyFile dst],
                  evs := st.evs ++
                    [Event.write dst sn.content, Event.setMtime dst sn.mtimeNs] } := by
  have hread : readFromFileFS sfs src = Except.ok sn.content := by
    simp [readFromFileFS, hsn, hrd]
  have hmt : mtimeFS sfs src = Except.ok sn.mtimeNs := by
    simp [mtimeFS, hsn]
  have hwra : writeToFileFS st.dfs dst sn.content =
      Except.ok (setNode st.dfs dst (FNode.mk FKind.regular 0 sn.content true)) := by
    simp [writeToFileFS, hwr]
  have hsma : setMtimeFS
      (setNode st.dfs dst (FNode.mk FKind.regular 0 sn.content true)) dst sn.mtimeNs =
      Except.ok (setNode
        (setNode st.dfs dst (FNode.mk FKind.regular 0 sn.content true)) dst
        (FNode.mk FKind.regular sn.mtimeNs sn.content true)) := by
    have hfails : (setNode st.dfs dst
        (FNode.mk FKind.regular 0 sn.content true)).setMtimeFails = [] := hsm
    simp [setMtimeFS, hfails, findNode_setNode_same]
  simp [syncStep, hexc, hdp, isDirOp_ok _ _ hcf, isRegularOp_ok _ _ hcf, hdir, hreg, hneed, hdry, hread, hwra, hmt, hsma]

/-- Step equation: a needed copy whose source read fails in real mode is
skipped with a warning. -/
theorem syncStep_warn_read (o : Opts) (sp dd : GoStr) (sfs : ModelFS) (st : LoopSt)
    (src dst : GoStr) (hdry : o.dryrun = false)
    (hexc : excluded o.exclude src = Except.ok false)
    (hdp : destPath sp dd src = some dst)
    (hcf : src ∉ sfs.classifyFails) (hdir : isDirFS sfs src = false)
    (hreg : isRegularFS sfs src = true)
    (hneed : needToCopy sfs st.dfs src dst = Except.ok true)
    (hread : readFromFileFS sfs src = Except.error ()) :
    syncStep o sp dd sfs st src =
      Except.ok { st with decs := st.decs ++ [Decision.warnRead src] } := by
  simp [syncStep, hexc, hdp, isDirOp_ok _ _ hcf, isRegularOp_ok _ _ hcf, hdir, hreg, hneed, hdry, hread]

/-- Step equation: an entry that is neither a directory nor a regular file
is skipped with a warning. -/
theorem syncStep_other (o : Opts) (sp dd : GoStr) (sfs : ModelFS) (st : LoopSt)
    (src dst : GoStr) (hexc : excluded o.exclude src = Except.ok false)
    (hdp : destPath sp dd src = some dst)
    (hcf : src ∉ sfs.classifyFails) (hdir : isDirFS sfs src = false)
    (hreg : isRegularFS sfs src = false) :
    syncStep o sp dd sfs st src =
      Except.ok { st with decs := st.decs ++ [Decision.warnOther src] } := by
  simp [syncStep, hexc, hdp, isDirOp_ok _ _ hcf, isRegularOp_ok _ _ hcf, hdir, hreg]

end Gsync

namespace Gsync

/-- `needToCopy` depends on the destination state only through the node
stored at the destination path. -/
theorem needToCopy_congr (sfs d1 d2 : ModelFS) (src dst : GoStr)
    (h : findNode d1 dst = findNode d2 dst) :
    needToCopy sfs d1 src dst = needToCopy sfs d2 src dst := by
  unfold needToCopy fileExistsFS mtimeFS
  rw [h]

/-- A path classified as a regular file has a stored regular node. -/
theorem isRegularFS_some (fs : ModelFS) (p : GoStr) (h : isRegularFS fs p = true) :
    ∃ n, findNode fs p = some n ∧ n.kind = FKind.regular := by
  unfold isRegularFS at h
  split at h
  · rename_i n hn
    exact ⟨n, hn, by simpa using h⟩
  · exact absurd h (by simp)

/-- A path classified as a directory has a stored directory node. -/
theorem isDirFS_some (fs : ModelFS) (p : GoStr) (h : isDirFS fs p = true) :
    ∃ n, findNode fs p = some n ∧ n.kind = FKind.dir := by
  unfold isDirFS at h
  split at h
  · rename_i n hn
    exact ⟨n, hn, by simpa using h⟩
  · exact absurd h (by simp)

/-- `needToCopy` cannot error when the source node exists. -/
theorem needToCopy_total (sfs dfs : ModelFS) (src dst : GoStr) (sn : FNode)
    (hsn : findNode sfs src = some sn) :
    ∃ b, needToCopy sfs dfs src dst = Except.ok b := by
  unfold needToCopy
  cases hdx : findNode dfs dst with
  | none => simp [fileExistsFS, hdx]
  | some dn => simp [fileExistsFS, hdx, mtimeFS, hsn]

/-- Dry and real runs of the loop produce the same decision sequence when
every source file is readable, no mutation faults are injected, and distinct
entries map to distinct destination paths. -/
theorem syncLoop_decs_dry_real (ex : List GoStr) (sp dd : GoStr) (sfs dfs0 : ModelFS)
    (hread : ∀ p n, findNode sfs p = some n → n.readable = true) :
    ∀ (entries : List GoStr) (stD stR : LoopSt),
      stD.dfs = dfs0 →
      stR.dfs.mkdirFails = [] → stR.dfs.writeFails = [] → stR.dfs.setMtimeFails = [] →
      (∀ e ∈ entries, ∀ d, destPath sp dd e = some d →
        findNode stR.dfs d = findNode dfs0 d) →
      List.Pairwise (fun a b => ∀ d, destPath sp dd a = some d →
        destPath sp dd b ≠ some d) entries →
      stD.decs = stR.decs →
      (syncLoop { dryrun := true, exclude := ex } sp dd sfs stD entries).1.decs =
        (syncLoop { dryrun := false, exclude := ex } sp dd sfs stR entries).1.decs := by
  intro entries
  induction entries with
  | nil =>
    intro stD stR _ _ _ _ _ _ hdecs
    simpa [syncLoop] using hdecs
  | cons e rest ih =>
    intro stD stR hD hmk hwr hsm hag hpw hdecs
    have hagE : ∀ d, destPath sp dd e = some d → findNode stR.dfs d = findNode dfs0 d :=
      fun d hd => hag e (List.mem_cons_self _ _) d hd
    have hagR : ∀ e' ∈ rest, ∀ d, destPath sp dd e' = some d →
        findNode stR.dfs d = findNode dfs0 d :=
      fun e' he' d hd => hag e' (List.mem_cons_of_mem _ he') d hd
    have hpwH := (List.pairwise_cons.mp hpw).1
    have hpwT := (List.pairwise_cons.mp hpw).2
    cases hexc : excluded ex e with
    | error err =>
      have h1 := syncStep_pattern_err { dryrun := true, exclude := ex } sp dd sfs stD e err hexc
      have h2 := syncStep_pattern_err { dryrun := false, exclude := ex } sp dd sfs stR e err hexc
      simp only [syncLoop, h1, h2]
      exact hdecs
    | ok b =>
      cases b with
      | true =>
        have h1 := syncStep_excluded { dryrun := true, exclude := ex } sp dd sfs stD e hexc
        have h2 := syncStep_excluded { dryrun := false, exclude := ex } sp dd sfs stR e hexc
        simp only [syncLoop, h1, h2]
        exact ih _ _ hD hmk hwr hsm hagR hpwT (by simp [hdecs])
      | false =>
        cases hdp : destPath sp dd e with
        | none =>
          have h1 := syncStep_panic { dryrun := true, exclude := ex } sp dd sfs stD e hexc hdp
          have h2 := syncStep_panic { dryrun := false, exclude := ex } sp dd sfs stR e hexc hdp
          simp only [syncLoop, h1, h2]
          exact hdecs
        | some dst =>
          have hagd := hagE dst hdp
          have hagRs : ∀ e' ∈ rest, ∀ d, destPath sp dd e' = some d →
              findNode (setNode stR.dfs dst
                (FNode.mk FKind.dir 0 0 true)) d = findNode dfs0 d := by
            intro e' he' d hd
            have hne : d ≠ dst := by
              intro hcontra
              subst hcontra
              exact hpwH e' he' d hdp hd
            rw [findNode_setNode_other _ dst d _ hne]
            exact hagR e' he' d hd
          by_cases hcf : e ∈ sfs.classifyFails
          · have h1 := syncStep_classify_err { dryrun := true, exclude := ex } sp dd sfs stD
              e dst hexc hdp hcf
            have h2 := syncStep_classify_err { dryrun := false, exclude := ex } sp dd sfs stR
              e dst hexc hdp hcf
            simp only [syncLoop, h1, h2]
            exact hdecs
          cases hdir : isDirFS sfs e with
          | true =>
            cases hex : fileExistsFS dfs0 dst with
            | true =>
              have hexD : fileExistsFS stD.dfs dst = true := by rw [hD]; exact hex
              have hexR : fileExistsFS stR.dfs dst = true := by
                unfold fileExistsFS
                rw [hagd]
                exact hex
              have h1 := syncStep_dir_exists { dryrun := true, exclude := ex } sp dd sfs stD
                e dst hexc hdp hcf hdir hexD
              have h2 := syncStep_dir_exists { dryrun := false, exclude := ex } sp dd sfs stR
                e dst hexc hdp hcf hdir hexR
              simp only [syncLoop, h1, h2]
              exact ih _ _ hD hmk hwr hsm hagR hpwT (by simp [hdecs])
            | false =>
              have hexD : fileExistsFS stD.dfs dst = false := by rw [hD]; exact hex
              have hexR : fileExistsFS stR.dfs dst = false := by
                unfold fileExistsFS
                rw [hagd]
                exact hex
              have h1 := syncStep_dir_create_dry { dryrun := true, exclude := ex } sp dd sfs stD
                e dst rfl hexc hdp hcf hdir hexD
              have h2 := syncStep_dir_create_real { dryrun := false, exclude := ex } sp dd sfs stR
                e dst rfl hexc hdp hcf hdir hexR hmk
              simp only [syncLoop, h1, h2]
              exact ih _ _ hD hmk hwr hsm hagRs hpwT (by simp [hdecs])
          | false =>
            cases hreg : isRegularFS sfs e with
            | false =>
              have h1 := syncStep_other { dryrun := true, exclude := ex } sp dd sfs stD
                e dst hexc hdp hcf hdir hreg
              have h2 := syncStep_other { dryrun := false, exclude := ex } sp dd sfs stR
                e dst hexc hdp hcf hdir hreg
              simp only [syncLoop, h1, h2]
              exact ih _ _ hD hmk hwr hsm hagR hpwT (by simp [hdecs])
            | true =>
              obtain ⟨sn, hsn, hsnk⟩ := isRegularFS_some sfs e hreg
              have hntc : needToCopy sfs stR.dfs e dst = needToCopy sfs stD.dfs e dst :=
                needToCopy_congr sfs stR.dfs stD.dfs e dst (by rw [hagd, hD])
              obtain ⟨bC, hbC⟩ := needToCopy_total sfs stD.dfs e dst sn hsn
              cases bC with
              | false =>
                have h1 := syncStep_unchanged { dryrun := true, exclude := ex } sp dd sfs stD
                  e dst hexc hdp hcf hdir hreg hbC
                have h2 := syncStep_unchanged { dryrun := false, exclude := ex } sp dd sfs stR
                  e dst hexc hdp hcf hdir hreg (hntc.trans hbC)
                simp only [syncLoop, h1, h2]
                exact ih _ _ hD hmk hwr hsm hagR hpwT (by simp [hdecs])
              | true =>
                have h1 := syncStep_copy_dry { dryrun := true, exclude := ex } sp dd sfs stD
                  e dst rfl hexc hdp hcf hdir hreg hbC
                have h2 := syncStep_copy_real { dryrun := false, exclude := ex } sp dd sfs stR
                  e dst sn rfl hexc hdp hcf hdir hreg (hntc.trans hbC) hsn (hread _ _ hsn) hwr hsm
                simp only [syncLoop, h1, h2]
                have hagRs2 : ∀ e' ∈ rest, ∀ d, destPath sp dd e' = some d →
                    findNode (setNode (setNode stR.dfs dst
                      (FNode.mk FKind.regular 0 sn.content true)) dst
                      (FNode.mk FKind.regular sn.mtimeNs sn.content true)) d =
                    findNode dfs0 d := by
                  intro e' he' d hd
                  have hne : d ≠ dst := by
                    intro hcontra
                    subst hcontra
                    exact hpwH e' he' d hdp hd
                  rw [findNode_setNode_other _ dst d _ hne,
                    findNode_setNode_other _ dst d _ hne]
                  exact hagR e' he' d hd
                exact ih _ _ hD hmk hwr hsm hagRs2 hpwT (by simp [hdecs])

end Gsync

open Gsync in
/-- C7 counterexample: with an unreadable source file that needs copying,
the dry run reports the copy decision while the real run reports a read
warning instead, so the per-entry decision sequences differ — refuting the
claim that they are always identical for the same initial state. -/
theorem C7_counterexample_unreadable_source :
    (sync { dryrun := true, exclude := [] } (str "/s") (str "d")
        { files := [(str "/s", { kind := FKind.dir, mtimeNs := 1, content := 0, readable := true }),
                    (str "/s/f", { kind := FKind.regular, mtimeNs := 5, content := 7,
                                   readable := false })],
          mkdirFails := [], writeFails := [], setMtimeFails := [], classifyFails := [] }
        { files := [(str "d", { kind := FKind.dir, mtimeNs := 0, content := 0, readable := true })],
          mkdirFails := [], writeFails := [], setMtimeFails := [], classifyFails := [] }).decs ≠
    (sync { dryrun := false, exclude := [] } (str "/s") (str "d")
        { files := [(str "/s", { kind := FKind.dir, mtimeNs := 1, content := 0, readable := true }),
                    (str "/s/f", { kind := FKind.regular, mtimeNs := 5, content := 7,
                                   readable := false })],
          mkdirFails := [], writeFails := [], setMtimeFails := [], classifyFails := [] }
        { files := [(str "d", { kind := FKind.dir, mtimeNs := 0, content := 0, readable := true })],
          mkdirFails := [], writeFails := [], setMtimeFails := [], classifyFails := [] }).decs := by decide

open Gsync in
/-- C7 (amended): a dry run issues zero mutating VFS calls and leaves the
destination state untouched, unconditionally, while still performing the
read-only classification and decision logic; and it produces the identical
sequence of per-entry decisions as a real run from the same initial state
provided every source file read succeeds, no mutation faults are injected,
and distinct entries map to distinct destination paths. -/
theorem C7_dry_run_faithfulness :
    (∀ (o : Opts) (sp dd : GoStr) (sfs dfs0 : ModelFS), o.dryrun = true →
      (sync o sp dd sfs dfs0).evs = [] ∧ (sync o sp dd sfs dfs0).dfs = dfs0) ∧
    (∀ (ex : List GoStr) (sp dd : GoStr) (sfs dfs0 : ModelFS),
      dfs0.mkdirFails = [] → dfs0.writeFails = [] → dfs0.setMtimeFails = [] →
      (∀ p n, findNode sfs p = some n → n.readable = true) →
      List.Pairwise (fun a b => ∀ d, destPath sp dd a = some d →
        destPath sp dd b ≠ some d) (entriesOf sfs sp) →
      (sync { dryrun := true, exclude := ex } sp dd sfs dfs0).decs =
        (sync { dryrun := false, exclude := ex } sp dd sfs dfs0).decs) := by
  refine ⟨fun o sp dd sfs dfs0 hdry => sync_dry_no_mutation o sp dd sfs dfs0 hdry,
    fun ex sp dd sfs dfs0 hmk hwr hsm hread hpw => ?_⟩
  unfold sync
  cases h1 : fileExistsFS dfs0 dd with
  | false => simp [h1]
  | true =>
    cases hop : isDirOp dfs0 dd with
    | error e => simp [h1, hop]
    | ok b =>
      cases b with
      | false => simp [h1, hop]
      | true =>
        cases hop2 : isDirOp sfs sp with
        | error e => simp [h1, hop, hop2]
        | ok c =>
          simp only [h1, hop, hop2, Bool.not_true, Bool.false_eq_true, if_false]
          have hdecs := syncLoop_decs_dry_real ex sp dd sfs dfs0 hread (entriesOf sfs sp)
            { dfs := dfs0, dirpairs := [], decs := [], evs := [] }
            { dfs := dfs0, dirpairs := [], decs := [], evs := [] }
            rfl hmk hwr hsm (fun _ _ _ _ => rfl) hpw rfl
          rcases hD : syncLoop { dryrun := true, exclude := ex } sp dd sfs
            { dfs := dfs0, dirpairs := [], decs := [], evs := [] } (entriesOf sfs sp)
            with ⟨stD, oeD⟩
          rcases hR : syncLoop { dryrun := false, exclude := ex } sp dd sfs
            { dfs := dfs0, dirpairs := [], decs := [], evs := [] } (entriesOf sfs sp)
            with ⟨stR, oeR⟩
          rw [hD, hR] at hdecs
          cases oeD <;> cases oeR <;> exact hdecs

namespace Gsync

/-- If every stored node is readable, every successful lookup is readable. -/
theorem readable_of_all (fs : ModelFS)
    (hall : ∀ q ∈ fs.files, q.2.readable = true) :
    ∀ p n, findNode fs p = some n → n.readable = true := by
  intro p n h
  unfold findNode at h
  cases hf : fs.files.find? (fun q => decide (q.1 = p)) with
  | none =>
    rw [hf] at h
    exact Option.noConfusion h
  | some q =>
    rw [hf] at h
    injection h with h'
    subst h'
    exact hall q (List.mem_of_find?_eq_some hf)

/-- A decidable sufficient condition for the pairwise-distinct-destination
hypothesis. -/
theorem pairwise_dps (sp dd : GoStr) (l : List GoStr)
    (h : List.Pairwise (fun a b => destPath sp dd a ≠ destPath sp dd b ∨
      destPath sp dd a = none) l) :
    List.Pairwise (fun a b => ∀ d, destPath sp dd a = some d →
      destPath sp dd b ≠ some d) l := by
  refine h.imp ?_
  intro a b hab d hda hdb
  rcases hab with hne | hnone
  · exact hne (hda.trans hdb.symm)
  · rw [hnone] at hda
    exact Option.noConfusion hda

end Gsync

open Gsync in
/-- Witness for C7 at a concrete state: a dry run over a one-directory,
one-readable-file source issues no mutation events and leaves the
destination untouched, and its decision sequence matches the real run's. -/
theorem C7_dry_run_faithfulness_witness :
    ((sync { dryrun := true, exclude := [] } (str "/s") (str "d")
        { files := [(str "/s", { kind := FKind.dir, mtimeNs := 1, content := 0, readable := true }),
                    (str "/s/f", { kind := FKind.regular, mtimeNs := 5, content := 7,
                                   readable := true })],
          mkdirFails := [], writeFails := [], setMtimeFails := [], classifyFails := [] }
        { files := [(str "d", { kind := FKind.dir, mtimeNs := 0, content := 0, readable := true })],
          mkdirFails := [], writeFails := [], setMtimeFails := [], classifyFails := [] }).evs = [] ∧
     (sync { dryrun := true, exclude := [] } (str "/s") (str "d")
        { files := [(str "/s", { kind := FKind.dir, mtimeNs := 1, content := 0, readable := true }),
                    (str "/s/f", { kind := FKind.regular, mtimeNs := 5, content := 7,
                                   readable := true })],
          mkdirFails := [], writeFails := [], setMtimeFails := [], classifyFails := [] }
        { files := [(str "d", { kind := FKind.dir, mtimeNs := 0, content := 0, readable := true })],
          mkdirFails := [], writeFails := [], setMtimeFails := [], classifyFails := [] }).dfs =
       { files := [(str "d", { kind := FKind.dir, mtimeNs := 0, content := 0, readable := true })],
         mkdirFails := [], writeFails := [], setMtimeFails := [], classifyFails := [] }) ∧
    (sync { dryrun := true, exclude := [] } (str "/s") (str "d")
        { files := [(str "/s", { kind := FKind.dir, mtimeNs := 1, content := 0, readable := true }),
                    (str "/s/f", { kind := FKind.regular, mtimeNs := 5, content := 7,
                                   readable := true })],
          mkdirFails := [], writeFails := [], setMtimeFails := [], classifyFails := [] }
        { files := [(str "d", { kind := FKind.dir, mtimeNs := 0, content := 0, readable := true })],
          mkdirFails := [], writeFails := [], setMtimeFails := [], classifyFails := [] }).decs =
      (sync { dryrun := false, exclude := [] } (str "/s") (str "d")
        { files := [(str "/s", { kind := FKind.dir, mtimeNs := 1, content := 0, readable := true }),
                    (str "/s/f", { kind := FKind.regular, mtimeNs := 5, content := 7,
                                   readable := true })],
          mkdirFails := [], writeFails := [], setMtimeFails := [], classifyFails := [] }
        { files := [(str "d", { kind := FKind.dir, mtimeNs := 0, content := 0, readable := true })],
          mkdirFails := [], writeFails := [], setMtimeFails := [], classifyFails := [] }).decs :=
  ⟨C7_dry_run_faithfulness.1 _ _ _ _ _ rfl,
   C7_dry_run_faithfulness.2 [] (str "/s") (str "d") _ _ rfl rfl rfl
     (readable_of_all _ (by decide)) (pairwise_dps _ _ _ (by decide))⟩

namespace Gsync

/-- When `needToCopy` answers "no copy", the destination exists with a
truncated mtime at least the source's. -/
theorem needToCopy_false_facts (sfs dfs : ModelFS) (src dst : GoStr) (sn : FNode)
    (hsn : findNode sfs src = some sn)
    (h : needToCopy sfs dfs src dst = Except.ok false) :
    ∃ dn, findNode dfs dst = some dn ∧ truncSec sn.mtimeNs ≤ truncSec dn.mtimeNs := by
  unfold needToCopy at h
  cases hdx : findNode dfs dst with
  | none =>
    rw [show fileExistsFS dfs dst = false by simp [fileExistsFS, hdx]] at h
    simp at h
  | some dn =>
    rw [show fileExistsFS dfs dst = true by simp [fileExistsFS, hdx]] at h
    simp only [mtimeFS, hsn, hdx, Bool.not_true, Bool.false_eq_true, if_false] at h
    refine ⟨dn, rfl, ?_⟩
    have hd : decide (truncSec sn.mtimeNs > truncSec dn.mtimeNs) = false := by
      injection h
    exact le_of_not_lt (by simpa using hd)

/-- `needToCopy` answers "no copy" when both nodes exist and the source's
truncated mtime is not later. -/
theorem needToCopy_eval_false (sfs dfs : ModelFS) (src dst : GoStr) (sn dn : FNode)
    (hsn : findNode sfs src = some sn) (hdn : findNode dfs dst = some dn)
    (hle : truncSec sn.mtimeNs ≤ truncSec dn.mtimeNs) :
    needToCopy sfs dfs src dst = Except.ok false := by
  unfold needToCopy
  rw [show fileExistsFS dfs dst = true by simp [fileExistsFS, hdn]]
  simp [mtimeFS, hsn, hdn, not_lt_of_le hle]

/-- Storing a node preserves presence at every path. -/
theorem setNode_preserves_isSome (fs : ModelFS) (p q : GoStr) (n : FNode)
    (h : (findNode fs q).isSome = true) :
    (findNode (setNode fs p n) q).isSome = true := by
  by_cases hqp : q = p
  · subst hqp
    rw [findNode_setNode_same]
    rfl
  · rw [findNode_setNode_other _ _ _ _ hqp]
    exact h

/-- Membership in the recorded-pairs list of an entry list. -/
theorem dirPairsOf_mem (ex : List GoStr) (sp dd : GoStr) (sfs : ModelFS)
    (entries : List GoStr) (pr : GoStr × GoStr)
    (h : pr ∈ dirPairsOf ex sp dd sfs entries) :
    pr.1 ∈ entries ∧ excluded ex pr.1 = Except.ok false ∧
    destPath sp dd pr.1 = some pr.2 ∧ isDirFS sfs pr.1 = true := by
  unfold dirPairsOf at h
  rw [List.mem_filterMap] at h
  obtain ⟨e, he, hfm⟩ := h
  cases hexc : excluded ex e with
  | error err =>
    rw [hexc] at hfm
    simp at hfm
  | ok b =>
    rw [hexc] at hfm
    cases b with
    | true => simp at hfm
    | false =>
      cases hdp : destPath sp dd e with
      | none =>
        rw [hdp] at hfm
        simp at hfm
      | some d =>
        rw [hdp] at hfm
        cases hdir : isDirFS sfs e with
        | false =>
          rw [hdir] at hfm
          simp at hfm
        | true =>
          rw [hdir] at hfm
          simp only [if_true] at hfm
          injection hfm with hfm'
          subst hfm'
          exact ⟨he, hexc, hdp, hdir⟩

/-- Unfolding of the recorded-pairs list over a cons cell. -/
theorem dirPairsOf_cons (ex : List GoStr) (sp dd : GoStr) (sfs : ModelFS)
    (e : GoStr) (rest : List GoStr) :
    dirPairsOf ex sp dd sfs (e :: rest) =
      (match excluded ex e, destPath sp dd e with
        | Except.ok false, some d => if isDirFS sfs e then [(e, d)] else []
        | _, _ => []) ++ dirPairsOf ex sp dd sfs rest := by
  unfold dirPairsOf
  rw [List.filterMap_cons]
  cases hexc : excluded ex e with
  | error err => simp
  | ok b =>
    cases b with
    | true => simp
    | false =>
      cases hdp : destPath sp dd e with
      | none => simp
      | some d =>
        cases hdir : isDirFS sfs e with
        | false => simp [hdir]
        | true => simp [hdir]

end Gsync

namespace Gsync

/-- A path cannot be classified both as a directory and as a regular file. -/
theorem not_dir_and_regular (fs : ModelFS) (p : GoStr)
    (h1 : isDirFS fs p = true) (h2 : isRegularFS fs p = true) : False := by
  obtain ⟨n1, hn1, hk1⟩ := isDirFS_some fs p h1
  obtain ⟨n2, hn2, hk2⟩ := isRegularFS_some fs p h2
  rw [hn1] at hn2
  injection hn2 with hn
  rw [hn] at hk1
  rw [hk1] at hk2
  exact FKind.noConfusion hk2

/-- Facts established by a successful real-mode traversal loop: the recorded
pairs are exactly the non-excluded directory entries with their destination
paths, in order; every entry passed its exclusion test and had a defined
destination path; every non-excluded directory entry's destination exists in
the final loop state; and every non-excluded regular entry's destination
exists with a truncated mtime at least its source's. -/
theorem syncLoop_run1 (ex : List GoStr) (sp dd : GoStr) (sfs : ModelFS)
    (hread : ∀ p n, findNode sfs p = some n → n.readable = true) :
    ∀ (entries : List GoStr) (st : LoopSt),
      st.dfs.mkdirFails = [] → st.dfs.writeFails = [] → st.dfs.setMtimeFails = [] →
      List.Pairwise (fun a b => ∀ d, destPath sp dd a = some d →
        destPath sp dd b ≠ some d) entries →
      (syncLoop { dryrun := false, exclude := ex } sp dd sfs st entries).2 = none →
      ((syncLoop { dryrun := false, exclude := ex } sp dd sfs st entries).1.dirpairs =
        st.dirpairs ++ dirPairsOf ex sp dd sfs entries) ∧
      (∀ e ∈ entries,
        (∃ b, excluded ex e = Except.ok b) ∧
        (excluded ex e = Except.ok false → ∃ d, destPath sp dd e = some d) ∧
        (excluded ex e = Except.ok false → e ∉ sfs.classifyFails) ∧
        (excluded ex e = Except.ok false → ∀ dst, destPath sp dd e = some dst →
          (isDirFS sfs e = true →
            (findNode (syncLoop { dryrun := false, exclude := ex } sp dd sfs st
              entries).1.dfs dst).isSome = true) ∧
          (isRegularFS sfs e = true → ∃ sn dn,
            findNode sfs e = some sn ∧
            findNode (syncLoop { dryrun := false, exclude := ex } sp dd sfs st
              entries).1.dfs dst = some dn ∧
            truncSec sn.mtimeNs ≤ truncSec dn.mtimeNs))) := by
  intro entries
  induction entries with
  | nil =>
    intro st _ _ _ _ _
    exact ⟨by simp [syncLoop, dirPairsOf], fun e he => absurd he (List.not_mem_nil e)⟩
  | cons e rest ih =>
    intro st hmk hwr hsm hpw hok
    have hpwH := (List.pairwise_cons.mp hpw).1
    have hpwT := (List.pairwise_cons.mp hpw).2
    cases hstep : syncStep { dryrun := false, exclude := ex } sp dd sfs st e with
    | error err =>
      rw [show syncLoop { dryrun := false, exclude := ex } sp dd sfs st (e :: rest) =
          (st, some err) by simp [syncLoop, hstep]] at hok
      exact absurd hok (by simp)
    | ok st' =>
      have hloopeq : syncLoop { dryrun := false, exclude := ex } sp dd sfs st (e :: rest) =
          syncLoop { dryrun := false, exclude := ex } sp dd sfs st' rest := by
        simp [syncLoop, hstep]
      rw [hloopeq] at hok ⊢
      have hfails := syncStep_state _ sp dd sfs st e st' hstep
      have hmk' : st'.dfs.mkdirFails = [] := hfails.2.1.trans hmk
      have hwr' : st'.dfs.writeFails = [] := hfails.2.2.1.trans hwr
      have hsm' : st'.dfs.setMtimeFails = [] := hfails.2.2.2.1.trans hsm
      have IH := ih st' hmk' hwr' hsm' hpwT hok
      cases hexc : excluded ex e with
      | error err =>
        have hcontra := (syncStep_pattern_err { dryrun := false, exclude := ex } sp dd sfs
          st e err hexc).symm.trans hstep
        exact Except.noConfusion hcontra
      | ok b =>
        cases b with
        | true =>
          have heq := (syncStep_excluded { dryrun := false, exclude := ex } sp dd sfs
            st e hexc).symm.trans hstep
          injection heq with heq'
          subst heq'
          refine ⟨?_, fun e' he' => ?_⟩
          · rw [IH.1, dirPairsOf_cons, hexc]
            simp
          · rcases List.mem_cons.mp he' with rfl | he''
            · exact ⟨⟨true, hexc⟩,
                fun hc => absurd (hexc.symm.trans hc) (by simp),
                fun hc => absurd (hexc.symm.trans hc) (by simp),
                fun hc => absurd (hexc.symm.trans hc) (by simp)⟩
            · exact IH.2 e' he''
        | false =>
          cases hdp : destPath sp dd e with
          | none =>
            have hcontra := (syncStep_panic { dryrun := false, exclude := ex } sp dd sfs
              st e hexc hdp).symm.trans hstep
            exact Except.noConfusion hcontra
          | some dst =>
            have hloc : findNode (syncLoop { dryrun := false, exclude := ex } sp dd sfs
                st' rest).1.dfs dst = findNode st'.dfs dst := by
              refine (syncLoop_state _ sp dd sfs rest st').1 dst ?_
              intro e' he' d hd hcontra
              subst hcontra
              exact hpwH e' he' d hdp hd
            by_cases hcf : e ∈ sfs.classifyFails
            · have hcontra := (syncStep_classify_err { dryrun := false, exclude := ex }
                sp dd sfs st e dst hexc hdp hcf).symm.trans hstep
              exact Except.noConfusion hcontra
            cases hdir : isDirFS sfs e with
            | true =>
              have hdirpairs : st'.dirpairs = st.dirpairs ++ [(e, dst)] ∧
                  (findNode st'.dfs dst).isSome = true := by
                cases hex : fileExistsFS st.dfs dst with
                | true =>
                  have heq := (syncStep_dir_exists { dryrun := false, exclude := ex } sp dd
                    sfs st e dst hexc hdp hcf hdir hex).symm.trans hstep
                  injection heq with heq'
                  subst heq'
                  exact ⟨rfl, hex⟩
                | false =>
                  have heq := (syncStep_dir_create_real { dryrun := false, exclude := ex }
                    sp dd sfs st e dst rfl hexc hdp hcf hdir hex hmk).symm.trans hstep
                  injection heq with heq'
                  subst heq'
                  refine ⟨rfl, ?_⟩
                  show (findNode (setNode st.dfs dst _) dst).isSome = true
                  rw [findNode_setNode_same]
                  rfl
              refine ⟨?_, fun e' he' => ?_⟩
              · rw [IH.1, hdirpairs.1, dirPairsOf_cons, hexc, hdp, hdir]
                simp
              · rcases List.mem_cons.mp he' with rfl | he''
                · refine ⟨⟨false, hexc⟩, fun _ => ⟨dst, hdp⟩, fun _ => hcf,
                    fun _ dst' hdp' => ?_⟩
                  rw [hdp] at hdp'
                  injection hdp' with hdst'
                  subst hdst'
                  refine ⟨fun _ => ?_, fun hreg => absurd hreg ?_⟩
                  · rw [hloc]
                    exact hdirpairs.2
                  · intro hreg
                    exact not_dir_and_regular sfs _ hdir hreg
                · exact IH.2 e' he''
            | false =>
              cases hreg : isRegularFS sfs e with
              | true =>
                obtain ⟨sn, hsn, hsnk⟩ := isRegularFS_some sfs e hreg
                obtain ⟨bC, hbC⟩ := needToCopy_total sfs st.dfs e dst sn hsn
                have hfile : st'.dirpairs = st.dirpairs ∧ ∃ dn,
                    findNode st'.dfs dst = some dn ∧
                    truncSec sn.mtimeNs ≤ truncSec dn.mtimeNs := by
                  cases bC with
                  | false =>
                    have heq := (syncStep_unchanged { dryrun := false, exclude := ex }
                      sp dd sfs st e dst hexc hdp hcf hdir hreg hbC).symm.trans hstep
                    injection heq with heq'
                    subst heq'
                    obtain ⟨dn, hdn, hle⟩ := needToCopy_false_facts sfs st.dfs e dst sn hsn hbC
                    exact ⟨rfl, dn, hdn, hle⟩
                  | true =>
                    have heq := (syncStep_copy_real { dryrun := false, exclude := ex }
                      sp dd sfs st e dst sn rfl hexc hdp hcf hdir hreg hbC hsn
                      (hread _ _ hsn) hwr hsm).symm.trans hstep
                    injection heq with heq'
                    subst heq'
                    refine ⟨rfl, FNode.mk FKind.regular sn.mtimeNs sn.content true, ?_, le_refl _⟩
                    show findNode (setNode _ dst _) dst = _
                    rw [findNode_setNode_same]
                refine ⟨?_, fun e' he' => ?_⟩
                · rw [IH.1, hfile.1, dirPairsOf_cons, hexc, hdp, hdir]
                  simp
                · rcases List.mem_cons.mp he' with rfl | he''
                  · refine ⟨⟨false, hexc⟩, fun _ => ⟨dst, hdp⟩, fun _ => hcf,
                    fun _ dst' hdp' => ?_⟩
                    rw [hdp] at hdp'
                    injection hdp' with hdst'
                    subst hdst'
                    refine ⟨fun hd => absurd hd ?_, fun _ => ?_⟩
                    · intro hd
                      exact not_dir_and_regular sfs _ hd hreg
                    · obtain ⟨dn, hdn, hle⟩ := hfile.2
                      exact ⟨sn, dn, hsn, hloc.trans hdn, hle⟩
                  · exact IH.2 e' he''
              | false =>
                have heq := (syncStep_other { dryrun := false, exclude := ex } sp dd sfs
                  st e dst hexc hdp hcf hdir hreg).symm.trans hstep
                injection heq with heq'
                subst heq'
                refine ⟨?_, fun e' he' => ?_⟩
                · rw [IH.1, dirPairsOf_cons, hexc, hdp, hdir]
                  simp
                · rcases List.mem_cons.mp he' with rfl | he''
                  · refine ⟨⟨false, hexc⟩, fun _ => ⟨dst, hdp⟩, fun _ => hcf,
                    fun _ dst' hdp' => ?_⟩
                    rw [hdp] at hdp'
                    injection hdp' with hdst'
                    subst hdst'
                    exact ⟨fun hd => absurd hd (by rw [hdir]; simp),
                      fun hr => absurd hr (by rw [hreg]; simp)⟩
                  · exact IH.2 e' he''

end Gsync


namespace Gsync

/-- Unfolding of one restoration iteration when the index is out of range. -/
theorem restFrom_succ_none (sfs : ModelFS) (pairs : List (GoStr × GoStr))
    (dfs : ModelFS) (evs : List Event) (m : Nat) (hpr : pairs.get? m = none) :
    restFrom sfs pairs dfs evs (Nat.succ m) = ((dfs, evs), none) := by
  rw [List.get?_eq_getElem?] at hpr
  simp [restFrom, hpr]

/-- Unfolding of one restoration iteration at pair `pr`. -/
theorem restFrom_succ_some (sfs : ModelFS) (pairs : List (GoStr × GoStr))
    (dfs : ModelFS) (evs : List Event) (m : Nat) (pr : GoStr × GoStr)
    (hpr : pairs.get? m = some pr) :
    restFrom sfs pairs dfs evs (Nat.succ m) =
      (match mtimeFS sfs pr.1 with
        | Except.error e => ((dfs, evs), some e)
        | Except.ok mt =>
          match setMtimeFS dfs pr.2 mt with
          | Except.error e => ((dfs, evs), some e)
          | Except.ok dfs' =>
            restFrom sfs pairs dfs' (evs ++ [Event.setMtime pr.2 mt]) m) := by
  simp only [restFrom, hpr]

/-- The restoration loop only mutates at the pairs' destination paths,
never removes a node, and preserves the fault sets. -/
theorem restFrom_state (sfs : ModelFS) (pairs : List (GoStr × GoStr)) :
    ∀ (n : Nat) (dfs : ModelFS) (evs : List Event),
      (∀ p, (∀ pr ∈ pairs, pr.2 ≠ p) →
        findNode (restFrom sfs pairs dfs evs n).1.1 p = findNode dfs p) ∧
      (∀ p, (findNode dfs p).isSome = true →
        (findNode (restFrom sfs pairs dfs evs n).1.1 p).isSome = true) ∧
      (restFrom sfs pairs dfs evs n).1.1.mkdirFails = dfs.mkdirFails ∧
      (restFrom sfs pairs dfs evs n).1.1.writeFails = dfs.writeFails ∧
      (restFrom sfs pairs dfs evs n).1.1.setMtimeFails = dfs.setMtimeFails ∧
      (restFrom sfs pairs dfs evs n).1.1.classifyFails = dfs.classifyFails := by
  intro n
  induction n with
  | zero =>
    intro dfs evs
    exact ⟨fun _ _ => rfl, fun _ h => h, rfl, rfl, rfl, rfl⟩
  | succ m ih =>
    intro dfs evs
    cases hpr : pairs.get? m with
    | none =>
      rw [restFrom_succ_none sfs pairs dfs evs m hpr]
      exact ⟨fun _ _ => rfl, fun _ h => h, rfl, rfl, rfl, rfl⟩
    | some pr =>
      have hmem : pr ∈ pairs := List.get?_mem hpr
      rw [restFrom_succ_some sfs pairs dfs evs m pr hpr]
      split
      · exact ⟨fun _ _ => rfl, fun _ h => h, rfl, rfl, rfl, rfl⟩
      · rename_i mt hmt
        split
        · exact ⟨fun _ _ => rfl, fun _ h => h, rfl, rfl, rfl, rfl⟩
        · rename_i dfs' hsm
          obtain ⟨nd, hnd, hdfs'⟩ := setMtimeFS_ok dfs pr.2 mt dfs' hsm
          subst hdfs'
          have hr := ih (setNode dfs pr.2 { nd with mtimeNs := mt })
            (evs ++ [Event.setMtime pr.2 mt])
          refine ⟨fun p hp => ?_, fun p hp => ?_, ?_, ?_, ?_, ?_⟩
          · rw [hr.1 p hp]
            exact findNode_setNode_other _ _ _ _ (Ne.symm (hp pr hmem))
          · exact hr.2.1 p (setNode_preserves_isSome _ _ _ _ hp)
          · exact hr.2.2.1
          · exact hr.2.2.2.1
          · exact hr.2.2.2.2.1
          · exact hr.2.2.2.2.2

/-- The restoration loop succeeds when no SetMtime faults are injected and
every pair's source and destination nodes exist. -/
theorem restFrom_ok (sfs : ModelFS) (pairs : List (GoStr × GoStr)) :
    ∀ (n : Nat) (dfs : ModelFS) (evs : List Event),
      dfs.setMtimeFails = [] →
      (∀ pr ∈ pairs, (findNode sfs pr.1).isSome = true ∧
        (findNode dfs pr.2).isSome = true) →
      (restFrom sfs pairs dfs evs n).2 = none := by
  intro n
  induction n with
  | zero =>
    intro dfs evs _ _
    rfl
  | succ m ih =>
    intro dfs evs hsm hall
    cases hpr : pairs.get? m with
    | none =>
      rw [restFrom_succ_none sfs pairs dfs evs m hpr]
    | some pr =>
      have hmem : pr ∈ pairs := List.get?_mem hpr
      obtain ⟨hsrc, hdst⟩ := hall pr hmem
      obtain ⟨sn, hsn⟩ := Option.isSome_iff_exists.mp hsrc
      obtain ⟨dn, hdn⟩ := Option.isSome_iff_exists.mp hdst
      rw [restFrom_succ_some sfs pairs dfs evs m pr hpr]
      split
      · rename_i e hmt
        simp [mtimeFS, hsn] at hmt
      · rename_i mt hmt
        split
        · rename_i e hsm2
          simp [setMtimeFS, hsm, hdn] at hsm2
        · rename_i dfs' hsm2
          obtain ⟨nd, hnd, hdfs'⟩ := setMtimeFS_ok dfs pr.2 mt dfs' hsm2
          subst hdfs'
          apply ih
          · exact hsm
          · intro pr' hpr'
            exact ⟨(hall pr' hpr').1,
              setNode_preserves_isSome _ _ _ _ (hall pr' hpr').2⟩

/-- The restoration loop keeps a directory node a directory at every path
(SetMtime preserves the kind). -/
theorem restFrom_preserves_dir_at (sfs : ModelFS) (pairs : List (GoStr × GoStr))
    (q : GoStr) :
    ∀ (n : Nat) (dfs : ModelFS) (evs : List Event),
      (∃ nd, findNode dfs q = some nd ∧ nd.kind = FKind.dir) →
      ∃ nd, findNode (restFrom sfs pairs dfs evs n).1.1 q = some nd ∧
        nd.kind = FKind.dir := by
  intro n
  induction n with
  | zero =>
    intro dfs evs hq
    exact hq
  | succ m ih =>
    intro dfs evs hq
    cases hpr : pairs.get? m with
    | none =>
      rw [restFrom_succ_none sfs pairs dfs evs m hpr]
      exact hq
    | some pr =>
      rw [restFrom_succ_some sfs pairs dfs evs m pr hpr]
      split
      · exact hq
      · rename_i mt hmt
        split
        · exact hq
        · rename_i dfs' hsm
          obtain ⟨nd0, hnd0, hdfs'⟩ := setMtimeFS_ok dfs pr.2 mt dfs' hsm
          subst hdfs'
          apply ih
          obtain ⟨nq, hnq, hkq⟩ := hq
          by_cases hqp : q = pr.2
          · subst hqp
            rw [hnq] at hnd0
            injection hnd0 with heq
            subst heq
            exact ⟨{ nq with mtimeNs := mt }, by rw [findNode_setNode_same], hkq⟩
          · exact ⟨nq, by rw [findNode_setNode_other _ _ _ _ hqp]; exact hnq, hkq⟩

end Gsync

namespace Gsync

/-- One successful loop step keeps a directory node a directory at a path
that is not the destination of a regular-file entry: directory creation is
guarded by an existence check, and SetMtime preserves the kind. -/
theorem syncStep_preserves_dir_at (o : Opts) (sp dd : GoStr) (sfs : ModelFS)
    (st : LoopSt) (src : GoStr) (st' : LoopSt) (q : GoStr)
    (h : syncStep o sp dd sfs st src = Except.ok st')
    (hregq : isRegularFS sfs src = true → ∀ d, destPath sp dd src = some d → d ≠ q)
    (hq : ∃ nd, findNode st.dfs q = some nd ∧ nd.kind = FKind.dir) :
    ∃ nd, findNode st'.dfs q = some nd ∧ nd.kind = FKind.dir := by
  unfold syncStep at h
  split at h
  · exact Except.noConfusion h
  · injection h with h'
    subst h'
    exact hq
  · split at h
    · exact Except.noConfusion h
    · rename_i dst hdp
      split at h
      · exact Except.noConfusion h
      · split at h
        · exact Except.noConfusion h
        · split at h
          · split at h
            · injection h with h'
              subst h'
              exact hq
            · rename_i hex
              split at h
              · injection h with h'
                subst h'
                exact hq
              · split at h
                · exact Except.noConfusion h
                · rename_i dfs' hmk
                  injection h with h'
                  subst h'
                  have hdfs := mkdirFS_ok st.dfs dst dfs' hmk
                  subst hdfs
                  obtain ⟨nd, hnd, hk⟩ := hq
                  have hdstq : dst ≠ q := by
                    intro hcontra
                    subst hcontra
                    apply hex
                    simp [fileExistsFS, hnd]
                  exact ⟨nd, by
                    rw [findNode_setNode_other _ _ _ _ (Ne.symm hdstq)]
                    exact hnd, hk⟩
          · split at h
            · rename_i hdirF hreg
              split at h
              · exact Except.noConfusion h
              · injection h with h'
                subst h'
                exact hq
              · split at h
                · injection h with h'
                  subst h'
                  exact hq
                · split at h
                  · injection h with h'
                    subst h'
                    exact hq
                  · rename_i content hread2
                    split at h
                    · exact Except.noConfusion h
                    · rename_i dfs1 hwrite
                      split at h
                      · exact Except.noConfusion h
                      · rename_i mt hmt
                        split at h
                        · exact Except.noConfusion h
                        · rename_i dfs2 hsetm
                          injection h with h'
                          subst h'
                          have hdfs1 := writeToFileFS_ok st.dfs dst content dfs1 hwrite
                          obtain ⟨n0, hn0, hdfs2⟩ := setMtimeFS_ok dfs1 dst mt dfs2 hsetm
                          subst hdfs1
                          subst hdfs2
                          obtain ⟨nd, hnd, hk⟩ := hq
                          have hdstq : dst ≠ q := hregq hreg dst hdp
                          refine ⟨nd, ?_, hk⟩
                          rw [findNode_setNode_other _ _ _ _ (Ne.symm hdstq),
                            findNode_setNode_other _ _ _ _ (Ne.symm hdstq)]
                          exact hnd
            · injection h with h'
              subst h'
              exact hq

/-- The whole loop keeps a directory node a directory at a path no
regular-file entry maps to. -/
theorem syncLoop_preserves_dir_at (o : Opts) (sp dd : GoStr) (sfs : ModelFS)
    (q : GoStr) :
    ∀ (entries : List GoStr) (st : LoopSt),
      (∀ e ∈ entries, isRegularFS sfs e = true → ∀ d, destPath sp dd e = some d → d ≠ q) →
      (∃ nd, findNode st.dfs q = some nd ∧ nd.kind = FKind.dir) →
      ∃ nd, findNode (syncLoop o sp dd sfs st entries).1.dfs q = some nd ∧
        nd.kind = FKind.dir := by
  intro entries
  induction entries with
  | nil =>
    intro st _ hq
    exact hq
  | cons e rest ih =>
    intro st hno hq
    simp only [syncLoop]
    cases hstep : syncStep o sp dd sfs st e with
    | error err => exact hq
    | ok st' =>
      exact ih st' (fun e' he' => hno e' (List.mem_cons_of_mem _ he'))
        (syncStep_preserves_dir_at o sp dd sfs st e st' q hstep
          (hno e (List.mem_cons_self _ _)) hq)

end Gsync

namespace Gsync

/-- A real-mode loop over entries whose destinations are already in sync
(directories present, files present with mtimes not older) performs no
mutation, emits no events, succeeds, and records the same pairs again. -/
theorem syncLoop_run2 (ex : List GoStr) (sp dd : GoStr) (sfs : ModelFS) :
    ∀ (entries : List GoStr) (st : LoopSt),
      (∀ e ∈ entries,
        (∃ b, excluded ex e = Except.ok b) ∧
        (excluded ex e = Except.ok false → ∃ d, destPath sp dd e = some d) ∧
        (excluded ex e = Except.ok false → e ∉ sfs.classifyFails)) →
      (∀ e ∈ entries, excluded ex e = Except.ok false →
        ∀ dst, destPath sp dd e = some dst →
          (isDirFS sfs e = true → (findNode st.dfs dst).isSome = true) ∧
          (isRegularFS sfs e = true → ∃ sn dn, findNode sfs e = some sn ∧
            findNode st.dfs dst = some dn ∧
            truncSec sn.mtimeNs ≤ truncSec dn.mtimeNs)) →
      (syncLoop { dryrun := false, exclude := ex } sp dd sfs st entries).1.dfs = st.dfs ∧
      (syncLoop { dryrun := false, exclude := ex } sp dd sfs st entries).1.evs = st.evs ∧
      (syncLoop { dryrun := false, exclude := ex } sp dd sfs st entries).2 = none ∧
      (syncLoop { dryrun := false, exclude := ex } sp dd sfs st entries).1.dirpairs =
        st.dirpairs ++ dirPairsOf ex sp dd sfs entries := by
  intro entries
  induction entries with
  | nil =>
    intro st _ _
    exact ⟨rfl, rfl, rfl, by simp [syncLoop, dirPairsOf]⟩
  | cons e rest ih =>
    intro st hwf hpost
    obtain ⟨⟨b, hexc⟩, hdpE, hcfE⟩ := hwf e (List.mem_cons_self _ _)
    have hwfR : ∀ e' ∈ rest, (∃ b, excluded ex e' = Except.ok b) ∧
        (excluded ex e' = Except.ok false → ∃ d, destPath sp dd e' = some d) ∧
        (excluded ex e' = Except.ok false → e' ∉ sfs.classifyFails) :=
      fun e' he' => hwf e' (List.mem_cons_of_mem _ he')
    cases b with
    | true =>
      have hstep := syncStep_excluded { dryrun := false, exclude := ex } sp dd sfs st e hexc
      have hIH := ih { st with decs := st.decs ++ [Decision.excludedEntry e] } hwfR
        (fun e' he' => hpost e' (List.mem_cons_of_mem _ he'))
      simp only [syncLoop, hstep]
      refine ⟨hIH.1, hIH.2.1, hIH.2.2.1, ?_⟩
      rw [hIH.2.2.2, dirPairsOf_cons, hexc]
      simp
    | false =>
      obtain ⟨dst, hdp⟩ := hdpE hexc
      have hcf := hcfE hexc
      have hpostE := hpost e (List.mem_cons_self _ _) hexc dst hdp
      cases hdir : isDirFS sfs e with
      | true =>
        have hex : fileExistsFS st.dfs dst = true := hpostE.1 hdir
        have hstep := syncStep_dir_exists { dryrun := false, exclude := ex } sp dd sfs st
          e dst hexc hdp hcf hdir hex
        have hIH := ih
          { st with
            dirpairs := st.dirpairs ++ [(e, dst)],
            decs := st.decs ++ [Decision.dirExists dst] }
          hwfR
          (fun e' he' => hpost e' (List.mem_cons_of_mem _ he'))
        simp only [syncLoop, hstep]
        refine ⟨hIH.1, hIH.2.1, hIH.2.2.1, ?_⟩
        rw [hIH.2.2.2, dirPairsOf_cons, hexc, hdp, hdir]
        simp
      | false =>
        cases hreg : isRegularFS sfs e with
        | true =>
          obtain ⟨sn, dn, hsn, hdn, hle⟩ := hpostE.2 hreg
          have hneed := needToCopy_eval_false sfs st.dfs e dst sn dn hsn hdn hle
          have hstep := syncStep_unchanged { dryrun := false, exclude := ex } sp dd sfs st
            e dst hexc hdp hcf hdir hreg hneed
          have hIH := ih { st with decs := st.decs ++ [Decision.unchanged dst] } hwfR
            (fun e' he' => hpost e' (List.mem_cons_of_mem _ he'))
          simp only [syncLoop, hstep]
          refine ⟨hIH.1, hIH.2.1, hIH.2.2.1, ?_⟩
          rw [hIH.2.2.2, dirPairsOf_cons, hexc, hdp, hdir]
          simp
        | false =>
          have hstep := syncStep_other { dryrun := false, exclude := ex } sp dd sfs st
            e dst hexc hdp hcf hdir hreg
          have hIH := ih { st with decs := st.decs ++ [Decision.warnOther e] } hwfR
            (fun e' he' => hpost e' (List.mem_cons_of_mem _ he'))
          simp only [syncLoop, hstep]
          refine ⟨hIH.1, hIH.2.1, hIH.2.2.1, ?_⟩
          rw [hIH.2.2.2, dirPairsOf_cons, hexc, hdp, hdir]
          simp

end Gsync

namespace Gsync

/-- Equation: `sync` with a missing destination root fails at once. -/
theorem sync_eq_missing (o : Opts) (sp dd : GoStr) (sfs dfs0 : ModelFS)
    (h : fileExistsFS dfs0 dd = false) :
    sync o sp dd sfs dfs0 = { err := some (SyncErr.dstMissing dd), dfs := dfs0,
                              dirpairs := [], decs := [], evs := [] } := by
  simp [sync, h]

/-- Equation: `sync` whose destination-root classification fails propagates
the classification error. -/
theorem sync_eq_dst_classify (o : Opts) (sp dd : GoStr) (sfs dfs0 : ModelFS)
    (h1 : fileExistsFS dfs0 dd = true) (h2 : dd ∈ dfs0.classifyFails) :
    sync o sp dd sfs dfs0 = { err := some (SyncErr.classifyErr dd), dfs := dfs0,
                              dirpairs := [], decs := [], evs := [] } := by
  simp [sync, h1, isDirOp_err _ _ h2]

/-- Equation: `sync` with a non-directory destination root fails at once. -/
theorem sync_eq_notdir (o : Opts) (sp dd : GoStr) (sfs dfs0 : ModelFS)
    (h1 : fileExistsFS dfs0 dd = true) (hcf : dd ∉ dfs0.classifyFails)
    (h2 : isDirFS dfs0 dd = false) :
    sync o sp dd sfs dfs0 = { err := some (SyncErr.dstNotDir dd), dfs := dfs0,
                              dirpairs := [], decs := [], evs := [] } := by
  simp [sync, h1, isDirOp_ok _ _ hcf, h2]

/-- Equation: `sync` whose source-root classification fails propagates the
classification error. -/
theorem sync_eq_src_classify (o : Opts) (sp dd : GoStr) (sfs dfs0 : ModelFS)
    (h1 : fileExistsFS dfs0 dd = true) (hcf : dd ∉ dfs0.classifyFails)
    (h2 : isDirFS dfs0 dd = true) (hcfs : sp ∈ sfs.classifyFails) :
    sync o sp dd sfs dfs0 = { err := some (SyncErr.classifyErr sp), dfs := dfs0,
                              dirpairs := [], decs := [], evs := [] } := by
  simp [sync, h1, isDirOp_ok _ _ hcf, h2, isDirOp_err _ _ hcfs]

/-- Equation: `sync` whose loop aborts propagates the loop error. -/
theorem sync_eq_abort (o : Opts) (sp dd : GoStr) (sfs dfs0 : ModelFS)
    (st : LoopSt) (e : SyncErr)
    (h1 : fileExistsFS dfs0 dd = true) (hcf : dd ∉ dfs0.classifyFails)
    (h2 : isDirFS dfs0 dd = true) (hcfs : sp ∉ sfs.classifyFails)
    (hloop : syncLoop o sp dd sfs { dfs := dfs0, dirpairs := [], decs := [], evs := [] }
      (entriesOf sfs sp) = (st, some e)) :
    sync o sp dd sfs dfs0 = { err := some e, dfs := st.dfs, dirpairs := st.dirpairs,
                              decs := st.decs, evs := st.evs } := by
  simp [sync, h1, isDirOp_ok _ _ hcf, h2, isDirOp_ok _ _ hcfs, hloop]

/-- Equation: a real-mode `sync` whose loop succeeds runs the restoration
pass and returns its outcome. -/
theorem sync_eq_real (o : Opts) (sp dd : GoStr) (sfs dfs0 : ModelFS)
    (st : LoopSt) (dfsF : ModelFS) (revs : List Event) (oe : Option SyncErr)
    (hdry : o.dryrun = false)
    (h1 : fileExistsFS dfs0 dd = true) (hcf : dd ∉ dfs0.classifyFails)
    (h2 : isDirFS dfs0 dd = true) (hcfs : sp ∉ sfs.classifyFails)
    (hloop : syncLoop o sp dd sfs { dfs := dfs0, dirpairs := [], decs := [], evs := [] }
      (entriesOf sfs sp) = (st, none))
    (hrest : restFrom sfs st.dirpairs st.dfs [] st.dirpairs.length = ((dfsF, revs), oe)) :
    sync o sp dd sfs dfs0 = { err := oe, dfs := dfsF, dirpairs := st.dirpairs,
                              decs := st.decs, evs := st.evs ++ revs } := by
  simp [sync, h1, isDirOp_ok _ _ hcf, h2, isDirOp_ok _ _ hcfs, hloop, hdry, hrest]

/-- A stored directory node makes `IsDir` answer true. -/
theorem isDirFS_of_node (fs : ModelFS) (p : GoStr) (nd : FNode)
    (hnd : findNode fs p = some nd) (hk : nd.kind = FKind.dir) :
    isDirFS fs p = true := by
  simp [isDirFS, hnd, hk]

end Gsync

open Gsync in
/-- C6: idempotence — if a real run of `sync` completes successfully and the
source tree is unchanged, a second run over the same source and destination
performs zero copy actions and creates no directories (every event it emits
is a restoration SetMtime), and `needToCopy` returns false for every
non-excluded regular file, because the first run left each destination's
mtime no older than its source's.  Hypotheses: no injected mutation faults,
every source file readable, distinct entries map to distinct destination
paths, and no regular entry maps onto the destination root itself. -/
theorem C6_idempotence (ex : List GoStr) (sp dd : GoStr) (sfs dfs0 : ModelFS)
    (hmk : dfs0.mkdirFails = []) (hwr : dfs0.writeFails = [])
    (hsm : dfs0.setMtimeFails = [])
    (hread : ∀ p n, findNode sfs p = some n → n.readable = true)
    (hpw : List.Pairwise (fun a b => ∀ d, destPath sp dd a = some d →
      destPath sp dd b ≠ some d) (entriesOf sfs sp))
    (hdd : ∀ e ∈ entriesOf sfs sp, isRegularFS sfs e = true →
      destPath sp dd e ≠ some dd)
    (h1 : (sync { dryrun := false, exclude := ex } sp dd sfs dfs0).err = none) :
    (sync { dryrun := false, exclude := ex } sp dd sfs
      (sync { dryrun := false, exclude := ex } sp dd sfs dfs0).dfs).err = none ∧
    (∀ ev ∈ (sync { dryrun := false, exclude := ex } sp dd sfs
      (sync { dryrun := false, exclude := ex } sp dd sfs dfs0).dfs).evs,
      ∃ p t, ev = Event.setMtime p t) ∧
    (∀ e ∈ entriesOf sfs sp, excluded ex e = Except.ok false →
      ∀ dst, destPath sp dd e = some dst → isRegularFS sfs e = true →
      needToCopy sfs (sync { dryrun := false, exclude := ex } sp dd sfs dfs0).dfs e dst =
        Except.ok false) := by
  cases hex0 : fileExistsFS dfs0 dd with
  | false =>
    rw [sync_eq_missing _ _ _ _ _ hex0] at h1
    exact absurd h1 (by simp)
  | true =>
    by_cases hcfd : dd ∈ dfs0.classifyFails
    · rw [sync_eq_dst_classify _ _ _ _ _ hex0 hcfd] at h1
      exact absurd h1 (by simp)
    cases hdir0 : isDirFS dfs0 dd with
    | false =>
      rw [sync_eq_notdir _ _ _ _ _ hex0 hcfd hdir0] at h1
      exact absurd h1 (by simp)
    | true =>
      by_cases hcfs : sp ∈ sfs.classifyFails
      · rw [sync_eq_src_classify _ _ _ _ _ hex0 hcfd hdir0 hcfs] at h1
        exact absurd h1 (by simp)
      rcases hloop1 : syncLoop { dryrun := false, exclude := ex } sp dd sfs
          { dfs := dfs0, dirpairs := [], decs := [], evs := [] } (entriesOf sfs sp)
        with ⟨st1, oe1⟩
      cases oe1 with
      | some e =>
        rw [sync_eq_abort _ _ _ _ _ _ _ hex0 hcfd hdir0 hcfs hloop1] at h1
        exact absurd h1 (by simp)
      | none =>
        rcases hrest1 : restFrom sfs st1.dirpairs st1.dfs [] st1.dirpairs.length
          with ⟨⟨dfs1, revs1⟩, oe1'⟩
        have hsync1 := sync_eq_real { dryrun := false, exclude := ex } sp dd sfs dfs0 st1
          dfs1 revs1 oe1' rfl hex0 hcfd hdir0 hcfs hloop1 hrest1
        rw [hsync1] at h1
        have hoe1' : oe1' = none := h1
        subst hoe1'
        have F1 := syncLoop_run1 ex sp dd sfs hread (entriesOf sfs sp)
          { dfs := dfs0, dirpairs := [], decs := [], evs := [] } hmk hwr hsm hpw
          (by rw [hloop1])
        rw [hloop1] at F1
        have LS := syncLoop_state { dryrun := false, exclude := ex } sp dd sfs
          (entriesOf sfs sp) { dfs := dfs0, dirpairs := [], decs := [], evs := [] }
        rw [hloop1] at LS
        have RS := restFrom_state sfs st1.dirpairs st1.dirpairs.length st1.dfs []
        rw [hrest1] at RS
        have hpairs : st1.dirpairs = dirPairsOf ex sp dd sfs (entriesOf sfs sp) := by
          have h := F1.1
          simpa using h
        have hmk1 : dfs1.mkdirFails = [] := RS.2.2.1.trans (LS.2.1.trans hmk)
        have hwr1 : dfs1.writeFails = [] := RS.2.2.2.1.trans (LS.2.2.1.trans hwr)
        have hsm1 : dfs1.setMtimeFails = [] := RS.2.2.2.2.1.trans (LS.2.2.2.1.trans hsm)
        have hcf1 : dfs1.classifyFails = dfs0.classifyFails :=
          RS.2.2.2.2.2.trans LS.2.2.2.2.1
        have hcfd1 : dd ∉ dfs1.classifyFails := by
          rw [hcf1]
          exact hcfd
        have hsymm : Symmetric (fun a b : GoStr => ∀ d, destPath sp dd a = some d →
            destPath sp dd b ≠ some d) := fun a b hab d hbd had => hab d had hbd
        have hpwS := hpw.forall hsymm
        have hpost : ∀ e ∈ entriesOf sfs sp, excluded ex e = Except.ok false →
            ∀ dst, destPath sp dd e = some dst →
              (isDirFS sfs e = true → (findNode dfs1 dst).isSome = true) ∧
              (isRegularFS sfs e = true → ∃ sn dn, findNode sfs e = some sn ∧
                findNode dfs1 dst = some dn ∧
                truncSec sn.mtimeNs ≤ truncSec dn.mtimeNs) := by
          intro e he hexcE dst hdp
          have hF := (F1.2 e he).2.2.2 hexcE dst hdp
          refine ⟨fun hdirE => RS.2.1 dst (hF.1 hdirE), fun hregE => ?_⟩
          obtain ⟨sn, dn, hsn, hdn, hle⟩ := hF.2 hregE
          refine ⟨sn, dn, hsn, ?_, hle⟩
          rw [RS.1 dst ?_]
          · exact hdn
          · intro pr hpr
            rw [hpairs] at hpr
            obtain ⟨hprmem, hprexc, hprdp, hprdir⟩ := dirPairsOf_mem _ _ _ _ _ _ hpr
            intro hcontra
            subst hcontra
            have hne : pr.1 ≠ e := by
              intro hpe
              exact not_dir_and_regular sfs e (hpe ▸ hprdir) hregE
            exact hpwS hprmem he hne pr.2 hprdp hdp
        have hexsome0 : (findNode dfs0 dd).isSome = true := hex0
        have hex1 : fileExistsFS dfs1 dd = true := RS.2.1 dd (LS.2.2.2.2.2 dd hexsome0)
        have hdirdd0 := isDirFS_some dfs0 dd hdir0
        have hdirdd1 := syncLoop_preserves_dir_at { dryrun := false, exclude := ex }
          sp dd sfs dd (entriesOf sfs sp)
          { dfs := dfs0, dirpairs := [], decs := [], evs := [] }
          (fun e he hregE d hd hco => hdd e he hregE (hco ▸ hd)) hdirdd0
        rw [hloop1] at hdirdd1
        have hdirddF := restFrom_preserves_dir_at sfs st1.dirpairs dd
          st1.dirpairs.length st1.dfs [] hdirdd1
        rw [hrest1] at hdirddF
        obtain ⟨nddF, hnddF, hkddF⟩ := hdirddF
        have hdir1 : isDirFS dfs1 dd = true := isDirFS_of_node dfs1 dd nddF hnddF hkddF
        have hwf2 : ∀ e ∈ entriesOf sfs sp, (∃ b, excluded ex e = Except.ok b) ∧
            (excluded ex e = Except.ok false → ∃ d, destPath sp dd e = some d) ∧
            (excluded ex e = Except.ok false → e ∉ sfs.classifyFails) :=
          fun e he => ⟨(F1.2 e he).1, (F1.2 e he).2.1, (F1.2 e he).2.2.1⟩
        have R2 := syncLoop_run2 ex sp dd sfs (entriesOf sfs sp)
          { dfs := dfs1, dirpairs := [], decs := [], evs := [] } hwf2
          (fun e he hexcE dst hdp => hpost e he hexcE dst hdp)
        rcases hloop2 : syncLoop { dryrun := false, exclude := ex } sp dd sfs
            { dfs := dfs1, dirpairs := [], decs := [], evs := [] } (entriesOf sfs sp)
          with ⟨st2, oe2⟩
        rw [hloop2] at R2
        have hoe2 : oe2 = none := R2.2.2.1
        subst hoe2
        have hst2dfs : st2.dfs = dfs1 := R2.1
        have hst2evs : st2.evs = [] := R2.2.1
        have hst2pairs : st2.dirpairs =
            [] ++ dirPairsOf ex sp dd sfs (entriesOf sfs sp) := R2.2.2.2
        have hall2 : ∀ pr ∈ st2.dirpairs, (findNode sfs pr.1).isSome = true ∧
            (findNode st2.dfs pr.2).isSome = true := by
          intro pr hpr
          rw [hst2pairs] at hpr
          simp only [List.nil_append] at hpr
          obtain ⟨hprmem, hprexc, hprdp, hprdir⟩ := dirPairsOf_mem _ _ _ _ _ _ hpr
          constructor
          · obtain ⟨nd, hnd, _⟩ := isDirFS_some sfs pr.1 hprdir
            rw [hnd]
            rfl
          · rw [hst2dfs]
            exact (hpost pr.1 hprmem hprexc pr.2 hprdp).1 hprdir
        have hrest2ok := restFrom_ok sfs st2.dirpairs st2.dirpairs.length st2.dfs []
          (by rw [hst2dfs]; exact hsm1) hall2
        rcases hrest2 : restFrom sfs st2.dirpairs st2.dfs [] st2.dirpairs.length
          with ⟨⟨dfs2, revs2⟩, oe2'⟩
        rw [hrest2] at hrest2ok
        have hoe2' : oe2' = none := hrest2ok
        subst hoe2'
        have hloop2' : syncLoop { dryrun := false, exclude := ex } sp dd sfs
            { dfs := dfs1, dirpairs := [], decs := [], evs := [] } (entriesOf sfs sp) =
            (st2, none) := hloop2
        have hrest2' : restFrom sfs st2.dirpairs st2.dfs [] st2.dirpairs.length =
            ((dfs2, revs2), none) := hrest2
        have hsync2 := sync_eq_real { dryrun := false, exclude := ex } sp dd sfs dfs1 st2
          dfs2 revs2 none rfl hex1 hcfd1 hdir1 hcfs hloop2' hrest2'
        have hdfseq : (sync { dryrun := false, exclude := ex } sp dd sfs dfs0).dfs =
            dfs1 := by
          rw [hsync1]
        rw [hdfseq]
        refine ⟨?_, ?_, ?_⟩
        · rw [hsync2]
        · intro ev hev
          rw [hsync2] at hev
          have hev' : ev ∈ st2.evs ++ revs2 := hev
          rw [hst2evs] at hev'
          simp only [List.nil_append] at hev'
          have hsh := restFrom_events sfs st2.dirpairs st2.dirpairs.length st2.dfs []
            (le_refl _) (by rw [hrest2'])
          rw [hrest2'] at hsh
          simp only [List.take_length, List.nil_append] at hsh
          have hsh' : revs2 = st2.dirpairs.reverse.map
              (fun pr => Event.setMtime pr.2 (mtimeD sfs pr.1)) := hsh
          rw [hsh'] at hev'
          obtain ⟨pr, _, hfr⟩ := List.mem_map.mp hev'
          exact ⟨pr.2, mtimeD sfs pr.1, hfr.symm⟩
        · intro e he hexcE dst hdp hregE
          obtain ⟨sn, dn, hsn, hdn, hle⟩ := (hpost e he hexcE dst hdp).2 hregE
          exact needToCopy_eval_false sfs dfs1 e dst sn dn hsn hdn hle

open Gsync in
/-- Concrete instance of C6: a two-entry source tree (directory `/s` and
regular file `/s/f`) synced twice into destination `d`; the second run
succeeds, emits only SetMtime restoration events, and `needToCopy` is false
for the regular file. -/
theorem C6_idempotence_witness :
    (sync { dryrun := false, exclude := [] } (str "/s") (str "d")
        { files := [(str "/s", { kind := FKind.dir, mtimeNs := 1, content := 0, readable := true }),
                    (str "/s/f", { kind := FKind.regular, mtimeNs := 5000000000, content := 7,
                                   readable := true })],
          mkdirFails := [], writeFails := [], setMtimeFails := [], classifyFails := [] }
        (sync { dryrun := false, exclude := [] } (str "/s") (str "d")
          { files := [(str "/s", { kind := FKind.dir, mtimeNs := 1, content := 0, readable := true }),
                      (str "/s/f", { kind := FKind.regular, mtimeNs := 5000000000, content := 7,
                                     readable := true })],
            mkdirFails := [], writeFails := [], setMtimeFails := [], classifyFails := [] }
          { files := [(str "d", { kind := FKind.dir, mtimeNs := 0, content := 0, readable := true })],
            mkdirFails := [], writeFails := [], setMtimeFails := [], classifyFails := [] }).dfs).err = none ∧
    (∀ ev ∈ (sync { dryrun := false, exclude := [] } (str "/s") (str "d")
        { files := [(str "/s", { kind := FKind.dir, mtimeNs := 1, content := 0, readable := true }),
                    (str "/s/f", { kind := FKind.regular, mtimeNs := 5000000000, content := 7,
                                   readable := true })],
          mkdirFails := [], writeFails := [], setMtimeFails := [], classifyFails := [] }
        (sync { dryrun := false, exclude := [] } (str "/s") (str "d")
          { files := [(str "/s", { kind := FKind.dir, mtimeNs := 1, content := 0, readable := true }),
                      (str "/s/f", { kind := FKind.regular, mtimeNs := 5000000000, content := 7,
                                     readable := true })],
            mkdirFails := [], writeFails := [], setMtimeFails := [], classifyFails := [] }
          { files := [(str "d", { kind := FKind.dir, mtimeNs := 0, content := 0, readable := true })],
            mkdirFails := [], writeFails := [], setMtimeFails := [], classifyFails := [] }).dfs).evs,
      ∃ p t, ev = Event.setMtime p t) ∧
    (∀ e ∈ entriesOf
        { files := [(str "/s", { kind := FKind.dir, mtimeNs := 1, content := 0, readable := true }),
                    (str "/s/f", { kind := FKind.regular, mtimeNs := 5000000000, content := 7,
                                   readable := true })],
          mkdirFails := [], writeFails := [], setMtimeFails := [], classifyFails := [] } (str "/s"),
      excluded [] e = Except.ok false →
      ∀ dst, destPath (str "/s") (str "d") e = some dst →
      isRegularFS
        { files := [(str "/s", { kind := FKind.dir, mtimeNs := 1, content := 0, readable := true }),
                    (str "/s/f", { kind := FKind.regular, mtimeNs := 5000000000, content := 7,
                                   readable := true })],
          mkdirFails := [], writeFails := [], setMtimeFails := [], classifyFails := [] } e = true →
      needToCopy
        { files := [(str "/s", { kind := FKind.dir, mtimeNs := 1, content := 0, readable := true }),
                    (str "/s/f", { kind := FKind.regular, mtimeNs := 5000000000, content := 7,
                                   readable := true })],
          mkdirFails := [], writeFails := [], setMtimeFails := [], classifyFails := [] }
        (sync { dryrun := false, exclude := [] } (str "/s") (str "d")
          { files := [(str "/s", { kind := FKind.dir, mtimeNs := 1, content := 0, readable := true }),
                      (str "/s/f", { kind := FKind.regular, mtimeNs := 5000000000, content := 7,
                                     readable := true })],
            mkdirFails := [], writeFails := [], setMtimeFails := [], classifyFails := [] }
          { files := [(str "d", { kind := FKind.dir, mtimeNs := 0, content := 0, readable := true })],
            mkdirFails := [], writeFails := [], setMtimeFails := [], classifyFails := [] }).dfs e dst =
        Except.ok false) :=
  C6_idempotence [] (str "/s") (str "d") _ _ rfl rfl rfl
    (readable_of_all _ (by decide)) (pairwise_dps _ _ _ (by decide))
    (by decide) (by decide)
